import Mathlib

/-!
Verification of the LedgerLoop natural-language-to-SQL analytics engine.

The definitions below are a shallow embedding of the Python sources under
`backend/app/services/analysis/` and `backend/app/api/analysis.py`.
Strings are modelled as `List Char` (the inputs of interest are ASCII), the
Python regular expressions are embedded as explicit, executable scanners with
the same backtracking semantics, and the external callbacks of the agent
orchestrator (LLM authoring, SQL execution) are universally quantified
function parameters.
-/

namespace LedgerLoop

/-! ## Character and string primitives (ASCII model of the Python string operations) -/

def between (lo hi n : Nat) : Bool := Nat.ble lo n && Nat.ble n hi

def isLowerAZ (c : Char) : Bool := between 97 122 c.toNat

def isUpperAZ (c : Char) : Bool := between 65 90 c.toNat

def isDigitC (c : Char) : Bool := between 48 57 c.toNat

/-- ASCII fragment of Python `str.lower`. -/
def lowChar (c : Char) : Char := if isUpperAZ c then Char.ofNat (c.toNat + 32) else c

def lowerL (s : List Char) : List Char := s.map lowChar

/-- Python regex word character `\w` (ASCII). -/
def isWordChar (c : Char) : Bool := isLowerAZ c || isUpperAZ c || isDigitC c || c == '_'

/-- Python regex whitespace `\s` (ASCII). -/
def isWs (c : Char) : Bool :=
  c == ' ' || c == '\t' || c == '\n' || c == '\r' || c == '\x0b' || c == '\x0c'

def isPrefixL : List Char → List Char → Bool
  | [], _ => true
  | _ :: _, [] => false
  | a :: as, b :: bs => a == b && isPrefixL as bs

/-- Substring containment (Python `in` on strings). -/
def containsL : List Char → List Char → Bool
  | needle, [] => isPrefixL needle []
  | needle, c :: cs => isPrefixL needle (c :: cs) || containsL needle cs

def stripRightL (s : List Char) : List Char := (s.reverse.dropWhile isWs).reverse

/-- Python `str.strip()` for ASCII whitespace. -/
def pstrip (s : List Char) : List Char := stripRightL (s.dropWhile isWs)

def joinComma (ls : List String) : String := String.intercalate ", " ls

/-! ## Embedding of `backend/app/services/analysis/sql_validation.py` -/

def FORBIDDEN_SQL_TOKENS : List (List Char) :=
  ["insert ".data, "update ".data, "delete ".data, "drop ".data, "alter ".data,
   "truncate ".data, "create ".data, "replace ".data, "attach ".data, "detach ".data,
   "pragma ".data, "vacuum ".data, "reindex ".data, "grant ".data, "revoke ".data,
   "copy ".data, "execute ".data, "information_schema".data, "sqlite_master".data,
   "pg_catalog".data]

def FORBIDDEN_FUNCTIONS : List (List Char) :=
  ["pg_sleep".data, "dblink_connect".data, "dblink_exec".data,
   "pg_read_file".data, "lo_import".data]

/-- One anchored attempt of the table-reference regex `(?:from|join)\s+([a-zA-Z_][\w.]*)`:
on success returns the captured identifier and the remaining input after the match. -/
def refMatchAt (s : List Char) : Option (List Char × List Char) :=
  let afterKw : Option (List Char) :=
    if isPrefixL "from".data s then some (s.drop 4)
    else if isPrefixL "join".data s then some (s.drop 4)
    else none
  match afterKw with
  | none => none
  | some r =>
    let r2 := r.dropWhile isWs
    if r2.length == r.length then none
    else
      match r2 with
      | [] => none
      | c :: _ =>
        if isLowerAZ c || isUpperAZ c || c == '_' then
          let ident := r2.takeWhile (fun d => isWordChar d || d == '.')
          some (ident, r2.drop ident.length)
        else none

def extractRefsAux : Nat → Bool → List Char → List (List Char)
  | 0, _, _ => []
  | _ + 1, _, [] => []
  | fuel + 1, pw, c :: cs =>
    if pw then extractRefsAux fuel (isWordChar c) cs
    else
      match refMatchAt (c :: cs) with
      | some (ident, rest) =>
          ident :: extractRefsAux fuel
            (match ident.getLast? with | some d => isWordChar d | none => true) rest
      | none => extractRefsAux fuel (isWordChar c) cs

/-- `re.findall(r"\b(?:from|join)\s+([a-zA-Z_][\w\.]*)", low)`: left-to-right scan with a
word boundary before the keyword, continuing after each non-overlapping match. -/
def extractRefs (low : List Char) : List (List Char) := extractRefsAux low.length false low

/-- Search for a position carrying one whitespace character, then the literal `w`,
then one more whitespace character (the minimal backtracking split of `\s+<w>\s+`
when everything before can be absorbed by a preceding `.+` under DOTALL). -/
def wsThenLitThenWs (w : List Char) : List Char → Bool
  | [] => false
  | c :: cs =>
    (isWs c && isPrefixL w cs &&
      (match cs.drop w.length with | d :: _ => isWs d | [] => false)) ||
    wsThenLitThenWs w cs

/-- Continuation of the fallback regex alternative `select\s+.+\s+from\s+` after the
literal `select`: one whitespace, at least one arbitrary character, then
whitespace-`from`-whitespace. -/
def selectFromAfter (r : List Char) : Bool :=
  match r with
  | c :: rest => isWs c && wsThenLitThenWs "from".data (rest.drop 1)
  | [] => false

/-- Search for whitespace, literal `select`, whitespace, at least one character, then
whitespace-`from`-whitespace (the tail of the `with` alternative). -/
def wsSelectThenFrom : List Char → Bool
  | [] => false
  | c :: cs =>
    (isWs c && isPrefixL "select".data cs &&
      (match cs.drop 6 with
       | d :: ds => isWs d && wsThenLitThenWs "from".data (ds.drop 1)
       | [] => false)) ||
    wsSelectThenFrom cs

/-- The fallback shape regex
`^\s*(select\s+.+\s+from\s+|with\s+.+\s+select\s+.+\s+from\s+)` with `re.DOTALL`,
matched by `re.search` (hence anchored only at the start of the string). -/
def matchesSelectFromShape (low : List Char) : Bool :=
  let afterWs := low.dropWhile isWs
  (isPrefixL "select".data afterWs && selectFromAfter (afterWs.drop 6)) ||
  (isPrefixL "with".data afterWs &&
    (match afterWs.drop 4 with
     | c :: rest => isWs c && wsSelectThenFrom (rest.drop 1)
     | [] => false))

/-- The regex fallback branch of `_validate_with_sqlglot` (sqlglot unavailable),
lines 63-72 of sql_validation.py. -/
def fallbackValidate (query : List Char) (allowedTables : List (List Char)) :
    Bool × List Char :=
  let low := lowerL query
  if isPrefixL "select from ".data (pstrip low) then (false, "SQL validation failed.".data)
  else if !(matchesSelectFromShape low) then (false, "SQL validation failed.".data)
  else if (extractRefs low).any (fun r => !(allowedTables.contains r)) then
    (false, "Table validation failed.".data)
  else (true, [])

/-- `validate_safe_sql`, parameterised by the outcome of the `_validate_with_sqlglot`
call (the sqlglot library is an external dependency; `astValidate` below is the spec
model of its branch, and `fallbackValidate` is the embedded regex branch). -/
def validateSafeSql (astBranch : List Char → Bool × List Char)
    (query : List Char) (allowedTables : List (List Char)) : Bool × List Char :=
  let q := pstrip query
  let low := lowerL q
  if q.isEmpty then (false, "Empty SQL.".data)
  else if q.contains ';' then (false, "Semicolon not allowed.".data)
  else if !(isPrefixL "select ".data low || isPrefixL "with ".data low) then
    (false, "Only SELECT allowed.".data)
  else
    match FORBIDDEN_SQL_TOKENS.find? (fun t => containsL t (low ++ [' '])) with
    | some t => (false, "Forbidden token: ".data ++ pstrip t ++ ".".data)
    | none =>
      let astRes := astBranch q
      if !astRes.1 then (false, astRes.2)
      else if (extractRefs low).any (fun r => !(allowedTables.contains r)) then
        (false,
          ("Only these tables are allowed: " ++
            joinComma ((allowedTables.map String.mk).mergeSort (· ≤ ·)) ++ ".").data)
      else (true, [])

/-- Modelled from the spec (§4.1): the shape of the sqlglot parse tree inspected by the
AST branch of `_validate_with_sqlglot`. The sqlglot parser itself is an external
library absent from the repository; this inductive stands for its output — write/DDL
statement nodes (`exp.Insert`, `exp.Update`, `exp.Delete`, `exp.Create`, `exp.Drop`,
`exp.Alter`, `exp.Command`, collapsed into one constructor since the source treats
them identically), table references, SELECT nodes with projection lists, and
anonymous (unrecognised) function calls. -/
inductive SqlAst where
  | column (name : String)
  | literal (text : String)
  | anonFunc (name : String) (args : List SqlAst)
  | tableRef (name : String)
  | selectNode (projections : List SqlAst) (sources : List SqlAst)
  | writeNode
  | withNode (ctes : List SqlAst) (body : SqlAst)

mutual

def astHasWrite : SqlAst → Bool
  | .column _ => false
  | .literal _ => false
  | .anonFunc _ args => astHasWriteL args
  | .tableRef _ => false
  | .selectNode ps srcs => astHasWriteL ps || astHasWriteL srcs
  | .writeNode => true
  | .withNode ctes body => astHasWriteL ctes || astHasWrite body

def astHasWriteL : List SqlAst → Bool
  | [] => false
  | t :: ts => astHasWrite t || astHasWriteL ts

end

mutual

def astTableNames : SqlAst → List String
  | .column _ => []
  | .literal _ => []
  | .anonFunc _ args => astTableNamesL args
  | .tableRef n => [n]
  | .selectNode ps srcs => astTableNamesL ps ++ astTableNamesL srcs
  | .writeNode => []
  | .withNode ctes body => astTableNamesL ctes ++ astTableNames body

def astTableNamesL : List SqlAst → List String
  | [] => []
  | t :: ts => astTableNames t ++ astTableNamesL ts

end

mutual

def astSelectProjections : SqlAst → List Nat
  | .column _ => []
  | .literal _ => []
  | .anonFunc _ args => astSelectProjectionsL args
  | .tableRef _ => []
  | .selectNode ps srcs => ps.length :: (astSelectProjectionsL ps ++ astSelectProjectionsL srcs)
  | .writeNode => []
  | .withNode ctes body => astSelectProjectionsL ctes ++ astSelectProjections body

def astSelectProjectionsL : List SqlAst → List Nat
  | [] => []
  | t :: ts => astSelectProjections t ++ astSelectProjectionsL ts

end

mutual

def astAnonNames : SqlAst → List String
  | .column _ => []
  | .literal _ => []
  | .anonFunc n args => n :: astAnonNamesL args
  | .tableRef _ => []
  | .selectNode ps srcs => astAnonNamesL ps ++ astAnonNamesL srcs
  | .writeNode => []
  | .withNode ctes body => astAnonNamesL ctes ++ astAnonNames body

def astAnonNamesL : List SqlAst → List String
  | [] => []
  | t :: ts => astAnonNames t ++ astAnonNamesL ts

end

/-- Modelled from the spec (§4.1) and lines 74-109 of sql_validation.py: the
sqlglot-based branch of `_validate_with_sqlglot`, operating on the modelled parse
tree — reject any write/DDL node, any table outside the allowlist, an absent or
empty SELECT projection list, and any anonymous function on the deny-list, in the
source's order of checks. -/
def astValidate (tree : SqlAst) (allowedTables : List String) : Bool × String :=
  if astHasWrite tree then (false, "Only SELECT statements are allowed.")
  else
    let unknown := ((astTableNames tree).map (fun n => String.mk (lowerL n.data))).filter
        (fun n => !(allowedTables.contains n))
    if !unknown.isEmpty then
      (false, "Disallowed table reference: " ++ joinComma unknown ++ ".")
    else if (astSelectProjections tree).isEmpty then
      (false, "Only SELECT statements are allowed.")
    else if (astSelectProjections tree).any (fun n => n == 0) then
      (false, "SELECT list cannot be empty.")
    else if (astAnonNames tree).any (fun n => FORBIDDEN_FUNCTIONS.contains (lowerL n.data)) then
      (false, "Forbidden function.")
    else (true, "")

/-! ## UUID redaction and answer sanitization (analysis.py lines 46-53, 188-219, 331-372) -/

def isHexC (c : Char) : Bool := isDigitC c || between 97 102 c.toNat || between 65 70 c.toNat

def isDashC (c : Char) : Bool := c == '-'

def isUuidVersionC (c : Char) : Bool := between 49 53 c.toNat

def isUuidVariantC (c : Char) : Bool :=
  c == '8' || c == '9' || c == 'a' || c == 'b' || c == 'A' || c == 'B'

/-- The 36 character classes of `_UUID_RE`:
`[0-9a-fA-F]{8}-[0-9a-fA-F]{4}-[1-5][0-9a-fA-F]{3}-[89abAB][0-9a-fA-F]{3}-[0-9a-fA-F]{12}`. -/
def UUID_SHAPE : List (Char → Bool) :=
  List.replicate 8 isHexC ++ [isDashC] ++ List.replicate 4 isHexC ++ [isDashC] ++
  [isUuidVersionC] ++ List.replicate 3 isHexC ++ [isDashC] ++
  [isUuidVariantC] ++ List.replicate 3 isHexC ++ [isDashC] ++ List.replicate 12 isHexC

def shapeMatch : List (Char → Bool) → List Char → Bool
  | [], _ => true
  | _ :: _, [] => false
  | p :: ps, c :: cs => p c && shapeMatch ps cs

/-- Match of `_UUID_RE` at the current position: the 36-character core shape followed by a
word boundary (the leading boundary is tracked by the scanner's previous-character state). -/
def boundaryOk (x : Option Char) : Bool :=
  match x with | none => true | some d => !isWordChar d

def uuidMatchAt (l : List Char) : Bool :=
  shapeMatch UUID_SHAPE l && boundaryOk l[36]?

def lastWordOf (l : List Char) : Bool :=
  match l.getLast? with | some d => isWordChar d | none => true

def memberChars : List Char := "member".data

/-- Generic single-pass regex substitution with replacement `member`, as performed by
`re.sub`: scan left to right; at each position try the matcher (which receives the
word-ness of the previous character, for leading `\b`), splice in the replacement on a
match of length `n` and continue right after it. -/
def subst (M : Bool → List Char → Option Nat) : Bool → List Char → List Char
  | _, [] => []
  | pw, c :: cs =>
    match M pw (c :: cs) with
    | some n => memberChars ++ subst M (lastWordOf ((c :: cs).take n)) (cs.drop (n - 1))
    | none => c :: subst M (isWordChar c) cs
termination_by _ l => l.length
decreasing_by
  all_goals simp [List.length_drop]
  omega

/-- `re.search` of `_UUID_RE`: is there a match anywhere; `pw` is the word-ness of the
character preceding the scanned text. -/
def hasUuidMatch : Bool → List Char → Bool
  | _, [] => false
  | pw, c :: cs => (!pw && uuidMatchAt (c :: cs)) || hasUuidMatch (isWordChar c) cs

def uuidMatcher (pw : Bool) (l : List Char) : Option Nat :=
  if !pw && uuidMatchAt l then some 36 else none

/-- `_redact_uuids`: `_UUID_RE.sub("member", text)`. -/
def redactUuids (s : List Char) : List Char := subst uuidMatcher false s

def INTERNAL_TOKENS : List (List Char) :=
  ["expense_id".data, "household_id".data, "logged_by_user_id".data, "user_id".data]

/-- One alternative of `_INTERNAL_TOKEN_RE` at the current position: case-insensitive
literal followed by a word boundary. -/
def tokenMatchAt (l : List Char) (t : List Char) : Bool :=
  isPrefixL t (lowerL l) && (match l.drop t.length with | [] => true | d :: _ => !isWordChar d)

/-- Matcher for `_INTERNAL_TOKEN_RE` =
`\b(?:expense_id|household_id|logged_by_user_id|user_id)\b` with `re.IGNORECASE`;
alternatives tried in the source's order. -/
def internalTokenMatcher (pw : Bool) (l : List Char) : Option Nat :=
  if pw then none
  else (INTERNAL_TOKENS.find? (fun t => tokenMatchAt l t)).map (fun t => t.length)

/-- `_INTERNAL_TOKEN_RE.sub("member", text)`. -/
def redactInternalTokens (s : List Char) : List Char := subst internalTokenMatcher false s

/-- The cell type of result rows: `str | int | float` (floats modelled as rationals,
which is exact for every value the claims touch). -/
inductive Cell where
  | str (s : String)
  | int (n : Int)
  | float (q : ℚ)
deriving DecidableEq, Repr

def isSuffixL (t s : List Char) : Bool := isPrefixL t.reverse s.reverse

/-- `_is_internal_id_column` (analysis.py lines 192-196): exact membership in the internal
name set, or the `_id$` suffix regex (the input is already lowercased, so the
IGNORECASE flag is inert, as in the source). -/
def isInternalIdColumn (column : String) : Bool :=
  let normalized := lowerL (pstrip column.data)
  INTERNAL_TOKENS.contains normalized || isSuffixL "_id".data normalized

def redactCell : Cell → Cell
  | .str s => .str (String.mk (redactUuids s.data))
  | c => c

/-- `_sanitize_table` (analysis.py lines 199-219). -/
def sanitizeTable (columns : List String) (rows : List (List Cell)) :
    List String × List (List Cell) :=
  if columns.isEmpty then ([], [])
  else
    let keepIdx := (List.range columns.length).filter
        (fun idx => !(isInternalIdColumn (columns.getD idx "")))
    let keepIdx := if keepIdx.isEmpty then List.range columns.length else keepIdx
    let safeColumns := keepIdx.map (fun idx => columns.getD idx "")
    let safeRows := rows.map (fun row =>
      keepIdx.map (fun idx => redactCell (row.getD idx (.str ""))))
    (safeColumns, safeRows)

/-! Nondeterministic matcher combinators for the markdown-table regex (the one embedded
pattern whose `\s*` pieces genuinely need backtracking). A matcher maps an input to the
list of possible remainders. -/

def MatcherND := List Char → List (List Char)

def mLit (w : List Char) : MatcherND := fun l => if isPrefixL w l then [l.drop w.length] else []

def mSeq (a b : MatcherND) : MatcherND := fun l => (a l).flatMap b

def mRunsAux (p : Char → Bool) : List Char → List (List Char)
  | [] => []
  | c :: cs => if p c then cs :: mRunsAux p cs else []

/-- `p+`: one or more characters of class `p` (all possible run lengths). -/
def mPlusCh (p : Char → Bool) : MatcherND := fun l => mRunsAux p l

/-- `p*`: zero or more characters of class `p`. -/
def mStarCh (p : Char → Bool) : MatcherND := fun l => l :: mRunsAux p l

def searchND (m : MatcherND) : List Char → Bool
  | [] => !(m []).isEmpty
  | c :: cs => !(m (c :: cs)).isEmpty || searchND m cs

def notNlC (c : Char) : Bool := !(c == '\n')

def mdSepC (c : Char) : Bool := c == '-' || c == ':' || c == '|' || c == ' '

/-- The pattern of `_contains_markdown_table`:
`\|.+\|\s*\n\|\s*[-:| ]+\|\s*\n\|.+\|` (no DOTALL, so `.` excludes newline). -/
def mdPattern : MatcherND :=
  mSeq (mLit "|".data) (mSeq (mPlusCh notNlC) (mSeq (mLit "|".data)
    (mSeq (mStarCh isWs) (mSeq (mLit "\n".data) (mSeq (mLit "|".data)
      (mSeq (mStarCh isWs) (mSeq (mPlusCh mdSepC) (mSeq (mLit "|".data)
        (mSeq (mStarCh isWs) (mSeq (mLit "\n".data) (mSeq (mLit "|".data)
          (mSeq (mPlusCh notNlC) (mLit "|".data)))))))))))))

def containsMarkdownTable (t : List Char) : Bool := searchND mdPattern t

def lbraceC : Char := Char.ofNat 123

def squoteC : Char := Char.ofNat 39

/-- `_looks_like_raw_table_dump` (analysis.py lines 340-355). -/
def looksLikeRawTableDump (t : List Char) : Bool :=
  let stripped := pstrip t
  if stripped.isEmpty then true
  else if containsMarkdownTable stripped then false
  else
    let low := lowerL stripped
    if containsL "------".data stripped && containsL "|".data stripped then true
    else if ["user_id".data, "expense_id".data, "household_id".data,
        "logged_by_user_id".data].any (fun tok => containsL tok low) then true
    else if isPrefixL ['[', lbraceC] stripped || isPrefixL [lbraceC, squoteC] stripped
        || isPrefixL "[(".data stripped then true
    else if containsL "row(".data low || containsL "mappings()".data low then true
    else false

/-- `_finalize_user_answer` (analysis.py lines 358-372); the friendly-summary builder
`_build_friendly_answer` is passed as a parameter (its string formatting is outside
every claim, which never takes the replacement path). -/
def finalizeUserAnswer (friendly : String → List String → List (List Cell) → String)
    (question : String) (rawAnswer : String) (columns : List String)
    (rows : List (List Cell)) (success : Bool) : List Char :=
  let clean := pstrip (subst internalTokenMatcher false (redactUuids rawAnswer.data))
  if !success then clean
  else if looksLikeRawTableDump clean then (friendly question columns rows).data
  else clean

/-! ### Redaction leaves no UUID-pattern match: character-level facts -/

def isHexDash (c : Char) : Bool := isHexC c || c == '-'

theorem isWs_not_word {c : Char} (h : isWs c = true) : isWordChar c = false := by
  simp only [isWs, Bool.or_eq_true, beq_iff_eq] at h
  rcases h with ((((h | h) | h) | h) | h) | h <;> subst h <;> decide

theorem isWs_not_hexdash {c : Char} (h : isWs c = true) : isHexDash c = false := by
  simp only [isWs, Bool.or_eq_true, beq_iff_eq] at h
  rcases h with ((((h | h) | h) | h) | h) | h <;> subst h <;> decide

theorem isHexC_word {c : Char} (h : isHexC c = true) : isWordChar c = true := by
  simp only [isHexC, isDigitC, between, Bool.or_eq_true, Bool.and_eq_true, Nat.ble_eq] at h
  simp only [isWordChar, isLowerAZ, isUpperAZ, isDigitC, between, Bool.or_eq_true,
    Bool.and_eq_true, Nat.ble_eq]
  omega

theorem shape_pred_hexdash {p : Char → Bool} (hp : p ∈ UUID_SHAPE) {c : Char}
    (hc : p c = true) : isHexDash c = true := by
  simp only [UUID_SHAPE, List.mem_append, List.mem_replicate, List.mem_singleton] at hp
  have hhex : p = isHexC ∨ p = isDashC ∨ p = isUuidVersionC ∨ p = isUuidVariantC := by
    tauto
  rcases hhex with h | h | h | h <;> subst h
  · simp [isHexDash, hc]
  · simp only [isDashC, beq_iff_eq] at hc
    subst hc; decide
  · simp only [isUuidVersionC, between, Bool.and_eq_true, Nat.ble_eq] at hc
    simp only [isHexDash, isHexC, isDigitC, between, Bool.or_eq_true, Bool.and_eq_true,
      Nat.ble_eq]
    omega
  · simp only [isUuidVariantC, Bool.or_eq_true, beq_iff_eq] at hc
    rcases hc with ((((h | h) | h) | h) | h) | h <;> subst h <;> decide

/-! ### Facts about `shapeMatch` and `uuidMatchAt` -/

theorem shapeMatch_length : ∀ (shape : List (Char → Bool)) (l : List Char),
    shapeMatch shape l = true → shape.length ≤ l.length := by
  intro shape
  induction shape with
  | nil => intro l _; simp
  | cons p ps ih =>
    intro l h
    cases l with
    | nil => simp [shapeMatch] at h
    | cons c cs =>
      simp only [shapeMatch, Bool.and_eq_true] at h
      simpa using ih cs h.2

theorem shapeMatch_pred : ∀ (shape : List (Char → Bool)) (l : List Char),
    shapeMatch shape l = true → ∀ (j : Nat) (c : Char), l[j]? = some c → j < shape.length →
      ∃ p, shape[j]? = some p ∧ p c = true := by
  intro shape
  induction shape with
  | nil => intro l _ j c _ hj; simp at hj
  | cons p ps ih =>
    intro l h j c hc hj
    cases l with
    | nil => simp [shapeMatch] at h
    | cons a as =>
      simp only [shapeMatch, Bool.and_eq_true] at h
      cases j with
      | zero =>
        simp only [List.getElem?_cons_zero, Option.some_inj] at hc
        subst hc
        exact ⟨p, by simp, h.1⟩
      | succ j' =>
        simp only [List.getElem?_cons_succ] at hc
        have hj' : j' < ps.length := by simpa using hj
        obtain ⟨q, hq, hqc⟩ := ih as h.2 j' c hc hj'
        exact ⟨q, by simpa using hq, hqc⟩

theorem shapeMatch_congr : ∀ (shape : List (Char → Bool)) (l1 l2 : List Char),
    l1.take shape.length = l2.take shape.length → shapeMatch shape l1 = shapeMatch shape l2 := by
  intro shape
  induction shape with
  | nil => intro l1 l2 _; rfl
  | cons p ps ih =>
    intro l1 l2 h
    cases l1 with
    | nil =>
      cases l2 with
      | nil => rfl
      | cons b bs => simp at h
    | cons a as =>
      cases l2 with
      | nil => simp at h
      | cons b bs =>
        simp only [List.length_cons, List.take_succ_cons, List.cons.injEq] at h
        simp only [shapeMatch, h.1, ih as bs h.2]

theorem uuid_shape_length : UUID_SHAPE.length = 36 := by decide

theorem uuidMatchAt_congr {l1 l2 : List Char} (h : l1.take 37 = l2.take 37) :
    uuidMatchAt l1 = uuidMatchAt l2 := by
  have h36 : l1.take 36 = l2.take 36 := by
    have := congrArg (List.take 36) h
    simpa [List.take_take] using this
  have hget : l1[36]? = l2[36]? := by
    have h1 : l1[36]? = (l1.take 37)[36]? := by
      simp [List.getElem?_take]
    have h2 : l2[36]? = (l2.take 37)[36]? := by
      simp [List.getElem?_take]
    rw [h1, h2, h]
  unfold uuidMatchAt
  rw [shapeMatch_congr UUID_SHAPE l1 l2 (by rwa [uuid_shape_length]), hget]

theorem mem_of_getElem? {α : Type} {l : List α} {j : Nat} {a : α} (h : l[j]? = some a) :
    a ∈ l := by
  have hj : j < l.length := by
    by_contra hge
    rw [List.getElem?_eq_none (by omega)] at h
    exact Option.noConfusion h
  rw [List.getElem?_eq_getElem hj] at h
  rw [← Option.some_inj.mp h]
  exact List.getElem_mem hj

theorem uuidMatchAt_m_cons (l : List Char) : uuidMatchAt ('m' :: l) = false := rfl

/-! ### The substitution scanner -/

def lastWord (xs : List Char) (pw : Bool) : Bool :=
  match xs.getLast? with | some d => isWordChar d | none => pw

theorem lastWord_nil (pw : Bool) : lastWord [] pw = pw := rfl

theorem lastWord_cons (c : Char) (xs : List Char) (pw : Bool) :
    lastWord (c :: xs) pw = lastWord xs (isWordChar c) := by
  cases xs with
  | nil => rfl
  | cons b bs =>
    unfold lastWord
    rw [List.getLast?_cons_cons]
    cases h : (b :: bs).getLast? with
    | none => exact absurd (List.getLast?_eq_none_iff.mp h) (by simp)
    | some d => rfl

theorem lastWord_append (xs ys : List Char) (pw : Bool) :
    lastWord (xs ++ ys) pw = lastWord ys (lastWord xs pw) := by
  induction xs generalizing pw with
  | nil => simp [lastWord_nil]
  | cons c cs ih => simp [List.cons_append, lastWord_cons, ih]

theorem lastWord_of_ne_nil {xs : List Char} (h : xs ≠ []) (pw pw' : Bool) :
    lastWord xs pw = lastWord xs pw' := by
  cases hx : xs.getLast? with
  | none => exact absurd (List.getLast?_eq_none_iff.mp hx) h
  | some d => simp [lastWord, hx]

theorem lastWordOf_eq_lastWord (xs : List Char) : lastWordOf xs = lastWord xs true := rfl

theorem hasUuidMatch_append_false : ∀ (xs ys : List Char) (pw : Bool),
    hasUuidMatch pw (xs ++ ys) = false → hasUuidMatch (lastWord xs pw) ys = false := by
  intro xs
  induction xs with
  | nil => intro ys pw h; simpa [lastWord_nil] using h
  | cons c cs ih =>
    intro ys pw h
    simp only [List.cons_append, hasUuidMatch, Bool.or_eq_false_iff] at h
    rw [lastWord_cons]
    exact ih ys (isWordChar c) h.2

theorem hasUuidMatch_member_append (pw : Bool) (t : List Char) :
    hasUuidMatch pw (memberChars ++ t) = hasUuidMatch true t := by
  have w1 : isWordChar 'm' = true := by decide
  have w2 : isWordChar 'e' = true := by decide
  have w3 : isWordChar 'b' = true := by decide
  have w4 : isWordChar 'r' = true := by decide
  show hasUuidMatch pw ('m' :: 'e' :: 'm' :: 'b' :: 'e' :: 'r' :: t) = hasUuidMatch true t
  simp [hasUuidMatch, uuidMatchAt_m_cons, w1, w2, w3, w4]

/-- Prefix-agreement of the substitution output: up to any length `i`, the output equals
the input, or the output carries an `m` (start of a spliced `member`) strictly before `i`. -/
theorem subst_prefix_or_m (M : Bool → List Char → Option Nat) :
    ∀ (s : List Char) (pw : Bool) (i : Nat),
      (subst M pw s).take i = s.take i ∨ ∃ j, j < i ∧ (subst M pw s)[j]? = some 'm' := by
  intro s
  induction s with
  | nil => intro pw i; left; simp [subst]
  | cons c cs ih =>
    intro pw i
    cases hM : M pw (c :: cs) with
    | some n =>
      cases i with
      | zero => left; simp
      | succ i' =>
        right
        refine ⟨0, Nat.succ_pos _, ?_⟩
        rw [subst, hM]
        rfl
    | none =>
      cases i with
      | zero => left; simp
      | succ i' =>
        rcases ih (isWordChar c) i' with hAg | ⟨j, hj, hm⟩
        · left
          rw [subst, hM, List.take_succ_cons, List.take_succ_cons, hAg]
        · right
          refine ⟨j + 1, Nat.succ_lt_succ hj, ?_⟩
          rw [subst, hM]
          simpa using hm

/-- Core lemma: a left-to-right `re.sub` with replacement `member` by a matcher `M` that
(i) consumes at least one character ending in a word character and (ii) fires on every
reachable scan position where the UUID regex would match, leaves no UUID-regex match in
its output. -/
theorem subst_scan_no_uuid (M : Bool → List Char → Option Nat)
    (Hlast : ∀ pw l n, M pw l = some n → 1 ≤ n ∧ lastWordOf (l.take n) = true) :
    ∀ (s : List Char) (pw : Bool),
      (∀ xs ys, s = xs ++ ys → (!(lastWord xs pw) && uuidMatchAt ys) = true →
        (M (lastWord xs pw) ys).isSome = true) →
      hasUuidMatch pw (subst M pw s) = false := by
  suffices H : ∀ (n : Nat) (s : List Char), s.length ≤ n → ∀ (pw : Bool),
      (∀ xs ys, s = xs ++ ys → (!(lastWord xs pw) && uuidMatchAt ys) = true →
        (M (lastWord xs pw) ys).isSome = true) →
      hasUuidMatch pw (subst M pw s) = false by
    exact fun s pw hc => H s.length s le_rfl pw hc
  intro n
  induction n with
  | zero =>
    intro s hs pw _
    have hnil : s = [] := List.length_eq_zero.mp (Nat.le_zero.mp hs)
    subst hnil
    simp [subst, hasUuidMatch]
  | succ n ih =>
    intro s hs pw hcov
    cases s with
    | nil => simp [subst, hasUuidMatch]
    | cons c cs =>
      cases hM : M pw (c :: cs) with
      | some k =>
        obtain ⟨hk1, hkw⟩ := Hlast pw (c :: cs) k hM
        have hrw : subst M pw (c :: cs) =
            memberChars ++ subst M true (cs.drop (k - 1)) := by
          rw [subst, hM]
          simp only [hkw]
        rw [hrw, hasUuidMatch_member_append]
        have hdropeq : (c :: cs).drop k = cs.drop (k - 1) := by
          cases k with
          | zero => omega
          | succ k' => simp [List.drop_succ_cons]
        apply ih (cs.drop (k - 1))
        · simp only [List.length_drop]
          simp only [List.length_cons] at hs
          omega
        · intro xs ys hsplit hcond
          have htkne : (c :: cs).take k ≠ [] := by
            cases k with
            | zero => omega
            | succ k' => simp [List.take_succ_cons]
          have hlw : ∀ b : Bool, lastWord ((c :: cs).take k ++ xs) b = lastWord xs true := by
            intro b
            rw [lastWord_append]
            have h1 : lastWord ((c :: cs).take k) b = true := by
              rw [lastWord_of_ne_nil htkne b true, ← lastWordOf_eq_lastWord]
              exact hkw
            rw [h1]
          have hs2 : (c :: cs) = ((c :: cs).take k ++ xs) ++ ys := by
            conv_lhs => rw [← List.take_append_drop k (c :: cs)]
            rw [hdropeq, hsplit, List.append_assoc]
          have hres := hcov ((c :: cs).take k ++ xs) ys hs2 (by rw [hlw pw]; exact hcond)
          rw [hlw pw] at hres
          exact hres
      | none =>
        have hrw : subst M pw (c :: cs) = c :: subst M (isWordChar c) cs := by
          rw [subst, hM]
        rw [hrw]
        simp only [hasUuidMatch, Bool.or_eq_false_iff]
        constructor
        · cases hpw : pw with
          | true => simp
          | false =>
            simp only [Bool.not_false, Bool.true_and]
            by_contra hne
            have hU : uuidMatchAt (c :: subst M (isWordChar c) cs) = true := by
              revert hne
              cases uuidMatchAt (c :: subst M (isWordChar c) cs) <;> simp
            rcases subst_prefix_or_m M cs (isWordChar c) 36 with hAg | ⟨j, hj, hm⟩
            · have hcongr : uuidMatchAt (c :: subst M (isWordChar c) cs) =
                  uuidMatchAt (c :: cs) := by
                apply uuidMatchAt_congr
                rw [List.take_succ_cons, List.take_succ_cons, hAg]
              rw [hcongr] at hU
              have hcc := hcov [] (c :: cs) rfl
                (by rw [lastWord_nil]; simp [hU, hpw])
              rw [lastWord_nil, hM] at hcc
              simp at hcc
            · have hm' : (c :: subst M (isWordChar c) cs)[j + 1]? = some 'm' := by
                simpa using hm
              simp only [uuidMatchAt, Bool.and_eq_true] at hU
              obtain ⟨hshape, hbound⟩ := hU
              rcases Nat.lt_or_ge (j + 1) 36 with hlt | hge
              · obtain ⟨p, hp, hpc⟩ := shapeMatch_pred UUID_SHAPE _ hshape (j + 1) 'm' hm'
                  (by rw [uuid_shape_length]; omega)
                have hdash := shape_pred_hexdash (mem_of_getElem? hp) hpc
                exact absurd hdash (by decide)
              · have hj36 : j + 1 = 36 := by omega
                rw [hj36] at hm'
                rw [hm'] at hbound
                simp [boundaryOk] at hbound
                exact absurd hbound (by decide)
        · apply ih cs
          · simp only [List.length_cons] at hs; omega
          · intro xs ys hsplit hcond
            have hs2 : (c :: cs) = (c :: xs) ++ ys := by rw [List.cons_append, hsplit]
            have hres := hcov (c :: xs) ys hs2
              (by rw [lastWord_cons]; exact hcond)
            rw [lastWord_cons] at hres
            exact hres

/-! ### Instantiating the core lemma for the two substitutions and for strip -/

theorem uuidMatchAt_nil : uuidMatchAt ([] : List Char) = false := rfl

theorem uuidMatchAt_not_hex {c : Char} (hc : isHexC c = false) (l : List Char) :
    uuidMatchAt (c :: l) = false := by
  by_contra hne
  have hU : uuidMatchAt (c :: l) = true := by
    revert hne; cases uuidMatchAt (c :: l) <;> simp
  simp only [uuidMatchAt, Bool.and_eq_true] at hU
  obtain ⟨p, hp, hpc⟩ := shapeMatch_pred UUID_SHAPE _ hU.1 0 c (by simp)
    (by rw [uuid_shape_length]; omega)
  have hp0 : UUID_SHAPE[0]? = some isHexC := rfl
  rw [hp0] at hp
  rw [← Option.some_inj.mp hp] at hpc
  rw [hpc] at hc
  exact Bool.noConfusion hc

theorem uuidMatcher_last (pw : Bool) (l : List Char) (n : Nat)
    (h : uuidMatcher pw l = some n) : 1 ≤ n ∧ lastWordOf (l.take n) = true := by
  unfold uuidMatcher at h
  by_cases hcond : (!pw && uuidMatchAt l) = true
  · rw [if_pos hcond] at h
    have hn : n = 36 := (Option.some_inj.mp h).symm
    subst hn
    refine ⟨by omega, ?_⟩
    have hU : uuidMatchAt l = true := by
      simp only [Bool.and_eq_true] at hcond
      exact hcond.2
    simp only [uuidMatchAt, Bool.and_eq_true] at hU
    have hlen : 36 ≤ l.length := by
      have := shapeMatch_length UUID_SHAPE l hU.1
      rwa [uuid_shape_length] at this
    have h35ex : ∃ c, l[35]? = some c := by
      rw [List.getElem?_eq_getElem (show (35 : Nat) < l.length by omega)]
      exact ⟨_, rfl⟩
    obtain ⟨c35, h35⟩ := h35ex
    obtain ⟨p, hp, hpc⟩ := shapeMatch_pred UUID_SHAPE l hU.1 35 _ h35
      (by rw [uuid_shape_length]; omega)
    have hp35 : UUID_SHAPE[35]? = some isHexC := rfl
    rw [hp35] at hp
    rw [← Option.some_inj.mp hp] at hpc
    have hlast : (l.take 36).getLast? = some c35 := by
      rw [List.getLast?_eq_getElem?]
      have hlt : (l.take 36).length = 36 := by
        rw [List.length_take]; omega
      rw [hlt]
      rw [List.getElem?_take]
      simp [h35]
    unfold lastWordOf
    rw [hlast]
    exact isHexC_word hpc
  · rw [if_neg hcond] at h
    exact Option.noConfusion h

theorem redactUuids_no_match (s : List Char) : hasUuidMatch false (redactUuids s) = false := by
  unfold redactUuids
  apply subst_scan_no_uuid uuidMatcher uuidMatcher_last s false
  intro xs ys _ hcond
  unfold uuidMatcher
  rw [if_pos hcond]
  rfl

theorem isPrefixL_take : ∀ (t l : List Char), isPrefixL t l = true → l.take t.length = t := by
  intro t
  induction t with
  | nil => intro l _; simp
  | cons a as ih =>
    intro l h
    cases l with
    | nil => simp [isPrefixL] at h
    | cons b bs =>
      simp only [isPrefixL, Bool.and_eq_true, beq_iff_eq] at h
      simp only [List.length_cons, List.take_succ_cons, ih bs h.2, h.1]

theorem internal_token_facts : ∀ t ∈ INTERNAL_TOKENS, 1 ≤ t.length ∧ t.getLast? = some 'd' := by
  intro t ht
  fin_cases ht <;> exact ⟨by decide, by decide⟩

theorem internalTokenMatcher_last (pw : Bool) (l : List Char) (n : Nat)
    (h : internalTokenMatcher pw l = some n) : 1 ≤ n ∧ lastWordOf (l.take n) = true := by
  unfold internalTokenMatcher at h
  split at h
  · exact Option.noConfusion h
  · cases hf : INTERNAL_TOKENS.find? (fun t => tokenMatchAt l t) with
    | none => rw [hf] at h; exact Option.noConfusion h
    | some t =>
      rw [hf] at h
      simp only [Option.map_some'] at h
      have hn : n = t.length := (Option.some_inj.mp h).symm
      subst hn
      have hmem := List.mem_of_find?_eq_some hf
      have hmatch := List.find?_some hf
      simp only [tokenMatchAt, Bool.and_eq_true] at hmatch
      obtain ⟨hfacts1, hfacts2⟩ := internal_token_facts t hmem
      refine ⟨hfacts1, ?_⟩
      have htake : (lowerL l).take t.length = t := isPrefixL_take t (lowerL l) hmatch.1
      have htake' : (l.take t.length).map lowChar = t := by
        rw [List.map_take]; exact htake
      have hgl : Option.map lowChar (l.take t.length).getLast? = some 'd' := by
        rw [← List.getLast?_map, htake', hfacts2]
      cases hx : (l.take t.length).getLast? with
      | none => rw [hx] at hgl; exact Option.noConfusion hgl
      | some c =>
        rw [hx] at hgl
        simp only [Option.map_some'] at hgl
        have hld : lowChar c = 'd' := Option.some_inj.mp hgl
        unfold lastWordOf
        rw [hx]
        by_cases hup : isUpperAZ c = true
        · simp [isWordChar, hup]
        · have hcc : c = 'd' := by
            unfold lowChar at hld
            rw [if_neg hup] at hld
            exact hld
          rw [hcc]; decide

theorem subst_preserves_no_uuid (M : Bool → List Char → Option Nat)
    (HlastM : ∀ pw l n, M pw l = some n → 1 ≤ n ∧ lastWordOf (l.take n) = true)
    {s : List Char} {pw : Bool} (h : hasUuidMatch pw s = false) :
    hasUuidMatch pw (subst M pw s) = false := by
  apply subst_scan_no_uuid M HlastM s pw
  intro xs ys hsplit hcond
  exfalso
  have h2 := hasUuidMatch_append_false xs ys pw (by rw [← hsplit]; exact h)
  cases ys with
  | nil =>
    rw [uuidMatchAt_nil] at hcond
    simp at hcond
  | cons y ys' =>
    simp only [hasUuidMatch, Bool.or_eq_false_iff] at h2
    rw [h2.1] at hcond
    exact Bool.noConfusion hcond

theorem hasUuidMatch_all_ws : ∀ (ws : List Char), (∀ c ∈ ws, isWs c = true) →
    ∀ pw, hasUuidMatch pw ws = false := by
  intro ws
  induction ws with
  | nil => intro _ pw; rfl
  | cons w ws' ih =>
    intro hws pw
    simp only [hasUuidMatch, Bool.or_eq_false_iff]
    constructor
    · have hw := hws w (by simp)
      have hx : isHexC w = false := by
        have hh := isWs_not_hexdash hw
        simp only [isHexDash, Bool.or_eq_false_iff] at hh
        exact hh.1
      rw [uuidMatchAt_not_hex hx]
      simp
    · exact ih (fun c hc => hws c (by simp [hc])) (isWordChar w)

theorem uuidMatchAt_append_ws {l ws : List Char} (hws : ∀ c ∈ ws, isWs c = true) :
    uuidMatchAt (l ++ ws) = uuidMatchAt l := by
  rcases Nat.lt_or_ge l.length 36 with hlt | hge
  · have h1 : uuidMatchAt l = false := by
      cases hu : uuidMatchAt l with
      | false => rfl
      | true =>
        simp only [uuidMatchAt, Bool.and_eq_true] at hu
        have := shapeMatch_length UUID_SHAPE l hu.1
        rw [uuid_shape_length] at this
        omega
    have h2 : uuidMatchAt (l ++ ws) = false := by
      cases hu : uuidMatchAt (l ++ ws) with
      | false => rfl
      | true =>
        simp only [uuidMatchAt, Bool.and_eq_true] at hu
        have hsm := hu.1
        have hlen := shapeMatch_length UUID_SHAPE (l ++ ws) hsm
        rw [uuid_shape_length, List.length_append] at hlen
        have hwsne : ws ≠ [] := by
          intro hnil; rw [hnil] at hlen; simp at hlen; omega
        cases ws with
        | nil => exact absurd rfl hwsne
        | cons w ws' =>
          have hget : (l ++ w :: ws')[l.length]? = some w := by
            rw [List.getElem?_append]
            simp
          obtain ⟨p, hp, hpc⟩ := shapeMatch_pred UUID_SHAPE _ hsm l.length w hget
            (by rw [uuid_shape_length]; omega)
          have hdash := shape_pred_hexdash (mem_of_getElem? hp) hpc
          rw [isWs_not_hexdash (hws w (by simp))] at hdash
          exact Bool.noConfusion hdash
    rw [h1, h2]
  · unfold uuidMatchAt
    have hsm : shapeMatch UUID_SHAPE (l ++ ws) = shapeMatch UUID_SHAPE l := by
      apply shapeMatch_congr
      rw [uuid_shape_length, List.take_append_of_le_length (by omega)]
    rw [hsm]
    have hb : boundaryOk (l ++ ws)[36]? = boundaryOk l[36]? := by
      rw [List.getElem?_append]
      by_cases h37 : 36 < l.length
      · rw [if_pos h37]
      · have h36 : l.length = 36 := by omega
        rw [if_neg h37, h36]
        have hnone : l[36]? = none := List.getElem?_eq_none (by omega)
        rw [hnone]
        simp only [Nat.sub_self]
        cases ws with
        | nil => rfl
        | cons w ws' =>
          simp only [List.getElem?_cons_zero, boundaryOk]
          rw [isWs_not_word (hws w (by simp))]
          rfl
    rw [hb]

theorem hasUuidMatch_append_ws : ∀ (t ws : List Char), (∀ c ∈ ws, isWs c = true) →
    ∀ pw, hasUuidMatch pw (t ++ ws) = hasUuidMatch pw t := by
  intro t ws hws
  induction t with
  | nil =>
    intro pw
    show hasUuidMatch pw ws = hasUuidMatch pw []
    rw [hasUuidMatch_all_ws ws hws pw]
    rfl
  | cons c cs ih =>
    intro pw
    show ((!pw && uuidMatchAt ((c :: cs) ++ ws)) || hasUuidMatch (isWordChar c) (cs ++ ws)) =
      ((!pw && uuidMatchAt (c :: cs)) || hasUuidMatch (isWordChar c) cs)
    rw [uuidMatchAt_append_ws hws, ih]

theorem hasUuidMatch_pstrip {s : List Char} (h : hasUuidMatch false s = false) :
    hasUuidMatch false (pstrip s) = false := by
  have hdecomp : s = s.takeWhile isWs ++ s.dropWhile isWs :=
    (List.takeWhile_append_dropWhile _ _).symm
  have h1 : hasUuidMatch (lastWord (s.takeWhile isWs) false) (s.dropWhile isWs) = false :=
    hasUuidMatch_append_false _ _ false (by rw [← hdecomp]; exact h)
  have hlwfalse : lastWord (s.takeWhile isWs) false = false := by
    cases hx : (s.takeWhile isWs).getLast? with
    | none => simp [lastWord, hx]
    | some d =>
      have hd : d ∈ s.takeWhile isWs := by
        rw [List.getLast?_eq_getElem?] at hx
        exact mem_of_getElem? hx
      simp [lastWord, hx, isWs_not_word (List.mem_takeWhile_imp hd)]
  rw [hlwfalse] at h1
  have ht : s.dropWhile isWs =
      stripRightL (s.dropWhile isWs) ++ ((s.dropWhile isWs).reverse.takeWhile isWs).reverse := by
    conv_lhs =>
      rw [← List.reverse_reverse (s.dropWhile isWs),
        ← List.takeWhile_append_dropWhile isWs (s.dropWhile isWs).reverse]
    rw [List.reverse_append]
    rfl
  have hws2 : ∀ c ∈ ((s.dropWhile isWs).reverse.takeWhile isWs).reverse, isWs c = true := by
    intro c hc
    rw [List.mem_reverse] at hc
    exact List.mem_takeWhile_imp hc
  have heq := hasUuidMatch_append_ws (stripRightL (s.dropWhile isWs)) _ hws2 false
  rw [← ht] at heq
  show hasUuidMatch false (stripRightL (s.dropWhile isWs)) = false
  rw [← heq]
  exact h1

/-! ### Claims C5 and C10: the sanitization boundary -/

theorem range_map_getD {α β : Type} (f : α → β) :
    ∀ (l : List α) (d : α), (List.range l.length).map (fun i => f (l.getD i d)) = l.map f := by
  intro l
  induction l with
  | nil => intro d; simp
  | cons a l' ih =>
    intro d
    rw [List.length_cons, List.range_succ_eq_map, List.map_cons, List.map_map]
    rw [List.map_cons]
    have hcomp : ((fun i => f ((a :: l').getD i d)) ∘ Nat.succ) = fun i => f (l'.getD i d) := by
      funext i
      simp [List.getD_cons_succ]
    rw [hcomp, ih d]
    rfl

theorem range_map_getD_self {α : Type} (l : List α) (d : α) :
    (List.range l.length).map (fun i => l.getD i d) = l := by
  have := range_map_getD (id : α → α) l d
  simpa using this

def cellNoUuid : Cell → Bool
  | .str s => !(hasUuidMatch false s.data)
  | _ => true

theorem cellNoUuid_redact (x : Cell) : cellNoUuid (redactCell x) = true := by
  cases x with
  | str s =>
    show (!(hasUuidMatch false (String.mk (redactUuids s.data)).data)) = true
    rw [show (String.mk (redactUuids s.data)).data = redactUuids s.data from rfl]
    rw [redactUuids_no_match]
    rfl
  | int n => rfl
  | float q => rfl

theorem sanitize_rows_cells (columns : List String) (rows : List (List Cell)) :
    ∀ row ∈ (sanitizeTable columns rows).2, ∀ cell ∈ row, cellNoUuid cell = true := by
  intro row hrow cell hcell
  unfold sanitizeTable at hrow
  by_cases hcolE : columns.isEmpty
  · rw [if_pos hcolE] at hrow
    simp at hrow
  · rw [if_neg hcolE] at hrow
    simp only [List.mem_map] at hrow
    obtain ⟨row0, _, hrowEq⟩ := hrow
    rw [← hrowEq] at hcell
    simp only [List.mem_map] at hcell
    obtain ⟨idx, _, hcellEq⟩ := hcell
    rw [← hcellEq]
    exact cellNoUuid_redact _

/-- C5 counterexample: when every column is an internal-ID column, `_sanitize_table`
keeps them all, so the returned column list still contains `expense_id`, contradicting
the claim as stated. -/
theorem C5_sanitization_counterexample :
    "expense_id" ∈ (sanitizeTable ["expense_id"] [[Cell.str "x"]]).1 := by decide

/-- C5 (amended): provided at least one column is not an internal-ID column, the
sanitized column list contains only non-internal columns (hence no raw `expense_id` or
`household_id`); every string cell of the sanitized table is free of UUID-pattern
matches; and whenever the answer takes the redaction path (failure, or text not
detected as a raw table dump), the finalized answer is free of UUID-pattern matches. -/
theorem C5_sanitization_amended
    (columns : List String) (rows : List (List Cell))
    (friendly : String → List String → List (List Cell) → String)
    (question rawAnswer : String) (success : Bool)
    (hcol : ∃ c ∈ columns, isInternalIdColumn c = false)
    (hpath : success = false ∨
      looksLikeRawTableDump
        (pstrip (subst internalTokenMatcher false (redactUuids rawAnswer.data))) = false) :
    (∀ c ∈ (sanitizeTable columns rows).1, isInternalIdColumn c = false) ∧
    (∀ row ∈ (sanitizeTable columns rows).2, ∀ cell ∈ row, cellNoUuid cell = true) ∧
    hasUuidMatch false
      (finalizeUserAnswer friendly question rawAnswer columns rows success) = false := by
  refine ⟨?_, sanitize_rows_cells columns rows, ?_⟩
  · intro c hc
    unfold sanitizeTable at hc
    obtain ⟨c0, hc0mem, hc0⟩ := hcol
    have hcolE : columns.isEmpty = false := by
      cases columns with
      | nil => simp at hc0mem
      | cons a l => rfl
    rw [hcolE] at hc
    simp only [Bool.false_eq_true, if_false] at hc
    obtain ⟨i, hi, hieq⟩ := List.mem_iff_getElem.mp hc0mem
    have hfne : (List.range columns.length).filter
        (fun idx => !(isInternalIdColumn (columns.getD idx ""))) ≠ [] := by
      intro hnil
      rw [List.filter_eq_nil_iff] at hnil
      refine hnil i (List.mem_range.mpr hi) ?_
      rw [List.getD_eq_getElem columns "" hi, hieq, hc0]
      rfl
    have hfE : ((List.range columns.length).filter
        (fun idx => !(isInternalIdColumn (columns.getD idx "")))).isEmpty = false := by
      cases hx : (List.range columns.length).filter
          (fun idx => !(isInternalIdColumn (columns.getD idx ""))) with
      | nil => exact absurd hx hfne
      | cons a l => rfl
    rw [hfE] at hc
    simp only [Bool.false_eq_true, if_false, List.mem_map] at hc
    obtain ⟨idx, hidxmem, hceq⟩ := hc
    rw [List.mem_filter] at hidxmem
    have := hidxmem.2
    simp only [Bool.not_eq_true'] at this
    rw [← hceq]
    exact this
  · have hclean : hasUuidMatch false
        (pstrip (subst internalTokenMatcher false (redactUuids rawAnswer.data))) = false :=
      hasUuidMatch_pstrip
        (subst_preserves_no_uuid internalTokenMatcher internalTokenMatcher_last
          (redactUuids_no_match rawAnswer.data))
    cases hsucc : success with
    | false =>
      show hasUuidMatch false
        (pstrip (subst internalTokenMatcher false (redactUuids rawAnswer.data))) = false
      exact hclean
    | true =>
      rcases hpath with hfail | hdump
      · exact absurd (hsucc ▸ hfail) (by simp)
      · show hasUuidMatch false
          (if looksLikeRawTableDump
              (pstrip (subst internalTokenMatcher false (redactUuids rawAnswer.data))) = true
            then (friendly question columns rows).data
            else pstrip (subst internalTokenMatcher false (redactUuids rawAnswer.data))) = false
        rw [hdump]
        exact hclean

/-- Witness for C5 (amended) at a concrete input. -/
theorem C5_sanitization_amended_witness :
    (∀ c ∈ (sanitizeTable ["amount", "expense_id"]
        [[Cell.str "paid 123e4567-e89b-12d3-a456-426614174000", Cell.int 2]]).1,
      isInternalIdColumn c = false) ∧
    (∀ row ∈ (sanitizeTable ["amount", "expense_id"]
        [[Cell.str "paid 123e4567-e89b-12d3-a456-426614174000", Cell.int 2]]).2,
      ∀ cell ∈ row, cellNoUuid cell = true) ∧
    hasUuidMatch false
      (finalizeUserAnswer (fun _ _ _ => "") "q"
        "total 123e4567-e89b-12d3-a456-426614174000 for expense_id"
        ["amount", "expense_id"]
        [[Cell.str "paid 123e4567-e89b-12d3-a456-426614174000", Cell.int 2]] false) = false :=
  C5_sanitization_amended _ _ _ _ _ _ ⟨"amount", by decide, by decide⟩ (Or.inl rfl)

/-- C10: when every column of the table is classified as an internal-ID column,
`_sanitize_table` keeps all columns (the keep-index fallback), returning the full column
list and the rows with each cell passed through UUID redaction only (string cells
redacted, other cells unchanged). -/
theorem C10_all_internal_columns_kept (columns : List String) (rows : List (List Cell))
    (hne : columns ≠ [])
    (hall : ∀ c ∈ columns, isInternalIdColumn c = true)
    (hlen : ∀ row ∈ rows, row.length = columns.length) :
    (sanitizeTable columns rows).1 = columns ∧
      (sanitizeTable columns rows).2 = rows.map (fun row => row.map redactCell) := by
  have hempty : columns.isEmpty = false := by
    cases columns with
    | nil => exact absurd rfl hne
    | cons a l => rfl
  have hfilter : (List.range columns.length).filter
      (fun idx => !(isInternalIdColumn (columns.getD idx ""))) = [] := by
    rw [List.filter_eq_nil_iff]
    intro idx hidx
    rw [List.mem_range] at hidx
    rw [List.getD_eq_getElem columns "" hidx]
    simp [hall _ (List.getElem_mem hidx)]
  constructor
  · show (sanitizeTable columns rows).1 = columns
    unfold sanitizeTable
    rw [hempty]
    simp only [Bool.false_eq_true, if_false, hfilter, List.isEmpty_nil, if_true]
    exact range_map_getD_self columns ""
  · show (sanitizeTable columns rows).2 = rows.map (fun row => row.map redactCell)
    unfold sanitizeTable
    rw [hempty]
    simp only [Bool.false_eq_true, if_false, hfilter, List.isEmpty_nil, if_true]
    apply List.map_congr_left
    intro row hrow
    rw [← hlen row hrow]
    exact range_map_getD redactCell row (.str "")

/-- Witness for C10 at a concrete input. -/
theorem C10_all_internal_columns_kept_witness :
    (sanitizeTable ["expense_id", "household_id"]
        [[Cell.str "id 123e4567-e89b-12d3-a456-426614174000", Cell.int 5]]).1 =
      ["expense_id", "household_id"] ∧
    (sanitizeTable ["expense_id", "household_id"]
        [[Cell.str "id 123e4567-e89b-12d3-a456-426614174000", Cell.int 5]]).2 =
      [[Cell.str "id 123e4567-e89b-12d3-a456-426614174000", Cell.int 5]].map
        (fun row => row.map redactCell) :=
  C10_all_internal_columns_kept _ _ (by decide) (by decide) (by decide)

/-! ### Claims C1 and C2: the SQL safety validator -/

/-- C1: `validate_safe_sql` returns ok = false for every candidate SQL string whose
lowercased stripped text (with the trailing space the source appends) contains a
deny-list token, for every `allowed_tables` set and every behaviour of the
`_validate_with_sqlglot` branch. -/
theorem C1_write_keyword_rejected
    (astBranch : List Char → Bool × List Char) (query : List Char)
    (allowedTables : List (List Char))
    (h : ∃ t ∈ FORBIDDEN_SQL_TOKENS, containsL t (lowerL (pstrip query) ++ [' ']) = true) :
    (validateSafeSql astBranch query allowedTables).1 = false := by
  simp only [validateSafeSql]
  split
  next => rfl
  next =>
    split
    next => rfl
    next =>
      split
      next => rfl
      next =>
        obtain ⟨tk, htk, hp⟩ := h
        cases hf : List.find? (fun t => containsL t (lowerL (pstrip query) ++ [' ']))
            FORBIDDEN_SQL_TOKENS with
        | none =>
          have hsome : (List.find? (fun t => containsL t (lowerL (pstrip query) ++ [' ']))
              FORBIDDEN_SQL_TOKENS).isSome := List.find?_isSome.mpr ⟨tk, htk, hp⟩
          rw [hf] at hsome
          simp at hsome
        | some tok => rfl

/-- Witness for C1 at a concrete input. -/
theorem C1_write_keyword_rejected_witness :
    (∃ t ∈ FORBIDDEN_SQL_TOKENS,
      containsL t
        (lowerL (pstrip "SELECT x FROM household_expenses WHERE a DROP b".data) ++ [' ']) =
        true) ∧
    (validateSafeSql (fun _ => (true, []))
      "SELECT x FROM household_expenses WHERE a DROP b".data
      ["household_expenses".data]).1 = false :=
  ⟨by decide, C1_write_keyword_rejected _ _ _ (by decide)⟩

def c2Query : List Char := "select a from household_expenses, secret_table".data

/-- Modelled from the spec: the sqlglot parse tree of `c2Query` — a single SELECT with
one projection and two comma-joined table references (the second not allowlisted). -/
def c2Tree : SqlAst :=
  .selectNode [.column "a"] [.tableRef "household_expenses", .tableRef "secret_table"]

def c2QueryFn : List Char := "select pg_sleep(10) from household_expenses".data

/-- Modelled from the spec: the sqlglot parse tree of `c2QueryFn` — a SELECT projecting
an anonymous call of the deny-listed function pg_sleep. -/
def c2TreeFn : SqlAst :=
  .selectNode [.anonFunc "pg_sleep" [.literal "10"]] [.tableRef "household_expenses"]

/-- C2: the regex fallback branch is strictly less restrictive than the AST branch —
it accepts a comma-joined table list whose second table is outside the allowlist (the
FROM/JOIN regex only captures the first name), and it accepts a deny-listed function
call; the AST branch rejects both. With sqlglot unavailable, the whole
`validate_safe_sql` therefore accepts the disallowed-table query. -/
theorem C2_fallback_not_more_restrictive :
    fallbackValidate c2Query ["household_expenses".data] = (true, []) ∧
    (astValidate c2Tree ["household_expenses"]).1 = false ∧
    (validateSafeSql (fun q => fallbackValidate q ["household_expenses".data])
      c2Query ["household_expenses".data]).1 = true ∧
    fallbackValidate c2QueryFn ["household_expenses".data] = (true, []) ∧
    (astValidate c2TreeFn ["household_expenses"]).1 = false := by
  refine ⟨by decide, by decide, by decide, by decide, by decide⟩

/-! ## Embedding of `backend/app/services/analysis/sql_agent.py` -/

def pystrip (s : String) : String := String.mk (pstrip s.data)

structure SQLAgentAttempt where
  attempt_number : Nat
  generated_sql : String
  llm_reason : Option String
  validation_ok : Bool
  validation_reason : Option String
  execution_ok : Bool
  db_error : Option String
deriving DecidableEq, Repr

structure SQLAgentResult where
  success : Bool
  final_sql : String
  answer : String
  attempts : List SQLAgentAttempt
  columns : List String
  rows : List (List Cell)
  tool_trace : List String
  failure_reason : Option String
deriving DecidableEq, Repr

/-- The orchestrator's external callbacks (`SQLAgentRunner`'s constructor arguments):
`gen` is the authoring callback's JSON payload for the given generation round
(`none` models a nil or malformed response; the round index subsumes the differing
generate/fix prompts), `fallbackSql` is `_fallback_sql`, `validate` is `_validate_sql`
(a pure function, per the spec), `execute` is `_execute_sql` for the given round
(`Except` carries the exception text), and `buildAnswer` collapses `_build_answer`
(summary LLM call with the `_default_answer` fallback) into one oracle. -/
structure SeqCallbacks where
  gen : Nat → Option (String × String)
  fallbackSql : String → String
  validate : String → Bool × String
  execute : Nat → String → Except String (List String × List (List Cell))
  buildAnswer : String → List String → List (List Cell) → String

/-- The result of a sequential run, instrumented with the list of SQL strings passed
to the execution callback and the outputs of the successful executions. -/
structure SeqTrace where
  result : SQLAgentResult
  executedSqls : List String
  successOutputs : List (List String × List (List Cell))
deriving Repr

/-- Round `idx`'s candidate SQL: the authoring payload's stripped `sql` field, or the
deterministic fallback when absent or empty (sql_agent.py lines 173-176). -/
def seqSql (cb : SeqCallbacks) (question : String) (idx : Nat) : String :=
  let sqlRaw := pystrip (match cb.gen idx with | some p => p.1 | none => "")
  if sqlRaw == "" then cb.fallbackSql question else sqlRaw

/-- Round `idx`'s stripped authoring reason, None when empty (sql_agent.py line 174). -/
def seqReason (cb : SeqCallbacks) (idx : Nat) : Option String :=
  let r := pystrip (match cb.gen idx with | some p => p.2 | none => "")
  if r == "" then none else some r

/-- The loop body of `SQLAgentRunner._run_sequential` (sql_agent.py lines 142-230):
`remaining` counts the rounds still allowed, `idx` is the 1-based attempt number. -/
def runSequentialGo (cb : SeqCallbacks) (question : String) (maxAttempts : Nat) :
    Nat → Nat → String → List SQLAgentAttempt → List String → List String →
    List (List String × List (List Cell)) → SeqTrace
  | 0, _, sqlPrev, attempts, trace, executed, succOut =>
    let failureReason : Option String :=
      match attempts.getLast? with
      | some a => a.db_error
      | none => some "No SQL attempt executed."
    let answer := "SQL execution failed after " ++ toString maxAttempts ++ " attempt(s): " ++
      (match failureReason with | some s => s | none => "None")
    let res : SQLAgentResult :=
      { success := false, final_sql := sqlPrev, answer := answer, attempts := attempts,
        columns := [], rows := [], tool_trace := trace, failure_reason := failureReason }
    { result := res, executedSqls := executed, successOutputs := succOut }
  | remaining + 1, idx, _, attempts, trace, executed, succOut =>
    let trace1 := trace ++
      [if idx == 1 then "sql_generate" else "sql_fix_" ++ toString idx]
    let llmReason := seqReason cb idx
    let sqlQuery := seqSql cb question idx
    let trace2 := trace1 ++ ["sql_validate"]
    let v := cb.validate sqlQuery
    if v.1 then
      let trace3 := trace2 ++ ["sql_execute"]
      match cb.execute idx sqlQuery with
      | .ok out =>
        let attempt : SQLAgentAttempt :=
          { attempt_number := idx, generated_sql := sqlQuery, llm_reason := llmReason,
            validation_ok := true, validation_reason := none,
            execution_ok := true, db_error := none }
        let res : SQLAgentResult :=
          { success := true, final_sql := sqlQuery,
            answer := cb.buildAnswer question out.1 out.2,
            attempts := attempts ++ [attempt], columns := out.1, rows := out.2,
            tool_trace := trace3 ++ ["answer_summarize"], failure_reason := none }
        { result := res, executedSqls := executed ++ [sqlQuery],
          successOutputs := succOut ++ [out] }
      | .error e =>
        let attempt : SQLAgentAttempt :=
          { attempt_number := idx, generated_sql := sqlQuery, llm_reason := llmReason,
            validation_ok := true, validation_reason := none,
            execution_ok := false, db_error := some e }
        runSequentialGo cb question maxAttempts remaining (idx + 1) sqlQuery
          (attempts ++ [attempt]) trace3 (executed ++ [sqlQuery]) succOut
    else
      let attempt : SQLAgentAttempt :=
        { attempt_number := idx, generated_sql := sqlQuery, llm_reason := llmReason,
          validation_ok := false, validation_reason := some v.2,
          execution_ok := false, db_error := some v.2 }
      runSequentialGo cb question maxAttempts remaining (idx + 1) sqlQuery
        (attempts ++ [attempt]) trace2 executed succOut

/-- `SQLAgentRunner._run_sequential`, instrumented with its execution trace. -/
def runSequential (cb : SeqCallbacks) (question : String) (maxAttempts : Nat) : SeqTrace :=
  runSequentialGo cb question maxAttempts maxAttempts 1 "" [] [] [] []

/-- The fields returned by `_node_execute_sql` (sql_agent.py lines 522-548), plus an
`executed` flag recording whether the execution callback was invoked. In the source,
`state.get("validation_reason", "SQL validation failed.")` defaults when the key is
absent; an absent-or-None reason is modelled as `none`. -/
structure ExecNodeOut where
  execution_ok : Bool
  db_error : Option String
  columns : List String
  rows : List (List Cell)
  executed : Bool
deriving Repr

def nodeExecuteSql (validationOk : Bool) (validationReason : Option String)
    (currentSql : String)
    (execute : String → Except String (List String × List (List Cell))) : ExecNodeOut :=
  if !validationOk then
    { execution_ok := false,
      db_error := some (match validationReason with
        | some s => s
        | none => "SQL validation failed."),
      columns := [], rows := [], executed := false }
  else
    match execute currentSql with
    | .ok out =>
      { execution_ok := true, db_error := none, columns := out.1, rows := out.2,
        executed := true }
    | .error e =>
      { execution_ok := false, db_error := some e, columns := [], rows := [],
        executed := true }

/-- Python `a or b or dflt` on optional strings (empty string and None are falsy),
as used by `_node_summarize_failure`. -/
def pyOrStr (a b : Option String) (dflt : String) : String :=
  match a with
  | some s =>
    if s == "" then
      match b with
      | some t => if t == "" then dflt else t
      | none => dflt
    else s
  | none =>
    match b with
    | some t => if t == "" then dflt else t
    | none => dflt

/-- The fields set by `_node_summarize_failure` (sql_agent.py lines 592-602). -/
structure FailNodeOut where
  success : Bool
  final_sql : String
  answer : String
  failure_reason : Option String
  columns : List String
  rows : List (List Cell)
deriving Repr

def nodeSummarizeFailure (attempt : Nat) (dbError validationReason : Option String)
    (currentSql : String) : FailNodeOut :=
  let reason := pyOrStr dbError validationReason "unknown error"
  { success := false, final_sql := currentSql,
    answer := "SQL execution failed after " ++ toString attempt ++ " attempt(s): " ++ reason,
    failure_reason := some reason, columns := [], rows := [] }

/-- `SQLAgentRunner._route_after_attempt` (sql_agent.py lines 604-609). -/
def routeAfterAttempt (executionOk : Bool) (attempt maxAttempts : Nat) : String :=
  if executionOk then "summarize_success"
  else if attempt ≥ maxAttempts then "summarize_failure"
  else "prepare_fix"

/-! ### Claims C3, C4, C6: the sequential retry orchestrator -/

theorem runSequentialGo_len_reason (cb : SeqCallbacks) (question : String) (maxAttempts : Nat)
    (hv : ∀ s, (cb.validate s).1 = false → (cb.validate s).2 ≠ "")
    (he : ∀ i s e, cb.execute i s = .error e → e ≠ "") :
    ∀ (remaining idx : Nat) (sqlPrev : String) (attempts : List SQLAgentAttempt)
      (trace executed : List String) (succOut : List (List String × List (List Cell))),
      (∀ a ∈ attempts, ∃ e, a.db_error = some e ∧ e ≠ "") →
      (runSequentialGo cb question maxAttempts remaining idx sqlPrev attempts trace executed
          succOut).result.attempts.length ≤ attempts.length + remaining ∧
      ((runSequentialGo cb question maxAttempts remaining idx sqlPrev attempts trace executed
          succOut).result.success = false →
        ∃ r, (runSequentialGo cb question maxAttempts remaining idx sqlPrev attempts trace
            executed succOut).result.failure_reason = some r ∧ r ≠ "") := by
  intro remaining
  induction remaining with
  | zero =>
    intro idx sqlPrev attempts trace executed succOut hinv
    constructor
    · simp [runSequentialGo]
    · intro _
      simp only [runSequentialGo]
      cases hl : attempts.getLast? with
      | none =>
        refine ⟨"No SQL attempt executed.", ?_, by simp⟩
        simp [hl]
      | some a =>
        have hmem : a ∈ attempts := by
          rw [List.getLast?_eq_getElem?] at hl
          exact mem_of_getElem? hl
        obtain ⟨e, he1, he2⟩ := hinv a hmem
        refine ⟨e, ?_, he2⟩
        simp [hl, he1]
  | succ rem ih =>
    intro idx sqlPrev attempts trace executed succOut hinv
    simp only [runSequentialGo]
    cases hval : (cb.validate (seqSql cb question idx)).1 with
    | true =>
      simp only [if_true]
      cases hexec : cb.execute idx (seqSql cb question idx) with
      | ok out =>
        constructor
        · simp only [List.length_append, List.length_cons, List.length_nil]
          omega
        · intro hfalse
          simp at hfalse
      | error e =>
        have hbad : e ≠ "" := he idx _ e hexec
        have hinv2 : ∀ a ∈ attempts ++
            [{ attempt_number := idx, generated_sql := seqSql cb question idx,
               llm_reason := seqReason cb idx,
               validation_ok := true, validation_reason := none,
               execution_ok := false, db_error := some e : SQLAgentAttempt }],
            ∃ e2, a.db_error = some e2 ∧ e2 ≠ "" := by
          intro a ha
          rcases List.mem_append.mp ha with hin | hnew
          · exact hinv a hin
          · rw [List.mem_singleton] at hnew
            exact ⟨e, by rw [hnew], hbad⟩
        constructor
        · exact le_trans ((ih (idx + 1) _ _ _ _ _ hinv2).1)
            (by simp only [List.length_append, List.length_cons, List.length_nil]; omega)
        · exact (ih (idx + 1) _ _ _ _ _ hinv2).2
    | false =>
      simp only [Bool.false_eq_true, if_false]
      have hbad := hv _ hval
      have hinv2 : ∀ a ∈ attempts ++
          [{ attempt_number := idx, generated_sql := seqSql cb question idx,
             llm_reason := seqReason cb idx,
             validation_ok := false,
             validation_reason := some (cb.validate (seqSql cb question idx)).2,
             execution_ok := false,
             db_error := some (cb.validate (seqSql cb question idx)).2 : SQLAgentAttempt }],
          ∃ e2, a.db_error = some e2 ∧ e2 ≠ "" := by
        intro a ha
        rcases List.mem_append.mp ha with hin | hnew
        · exact hinv a hin
        · rw [List.mem_singleton] at hnew
          exact ⟨_, by rw [hnew], hbad⟩
      constructor
      · exact le_trans ((ih (idx + 1) _ _ _ _ _ hinv2).1)
          (by simp only [List.length_append, List.length_cons, List.length_nil]; omega)
      · exact (ih (idx + 1) _ _ _ _ _ hinv2).2

theorem runSequentialGo_validated (cb : SeqCallbacks) (question : String) (maxAttempts : Nat) :
    ∀ (remaining idx : Nat) (sqlPrev : String) (attempts : List SQLAgentAttempt)
      (trace executed : List String) (succOut : List (List String × List (List Cell))),
      (∀ s ∈ executed, (cb.validate s).1 = true) →
      ∀ s ∈ (runSequentialGo cb question maxAttempts remaining idx sqlPrev attempts trace
          executed succOut).executedSqls, (cb.validate s).1 = true := by
  intro remaining
  induction remaining with
  | zero =>
    intro idx sqlPrev attempts trace executed succOut hpre s hs
    simp only [runSequentialGo] at hs
    exact hpre s hs
  | succ rem ih =>
    intro idx sqlPrev attempts trace executed succOut hpre s hs
    simp only [runSequentialGo] at hs
    cases hval : (cb.validate (seqSql cb question idx)).1 with
    | true =>
      rw [hval] at hs
      simp only [if_true] at hs
      cases hexec : cb.execute idx (seqSql cb question idx) with
      | ok out =>
        rw [hexec] at hs
        simp only [] at hs
        rcases List.mem_append.mp hs with hin | hnew
        · exact hpre s hin
        · rw [List.mem_singleton] at hnew
          rw [hnew]
          exact hval
      | error e =>
        rw [hexec] at hs
        refine ih (idx + 1) _ _ _ _ _ ?_ s hs
        intro s2 hs2
        rcases List.mem_append.mp hs2 with hin | hnew
        · exact hpre s2 hin
        · rw [List.mem_singleton] at hnew
          rw [hnew]
          exact hval
    | false =>
      rw [hval] at hs
      simp only [Bool.false_eq_true, if_false] at hs
      exact ih (idx + 1) _ _ _ _ _ hpre s hs

theorem getLast?_append_singleton {α : Type} : ∀ (l : List α) (a : α),
    (l ++ [a]).getLast? = some a := by
  intro l
  induction l with
  | nil => intro a; rfl
  | cons b bs ih =>
    intro a
    rw [List.cons_append]
    cases hbs : bs ++ [a] with
    | nil => exact absurd hbs (by simp)
    | cons c cs =>
      rw [List.getLast?_cons_cons, ← hbs, ih a]

theorem runSequentialGo_invariant (cb : SeqCallbacks) (question : String) (maxAttempts : Nat) :
    ∀ (remaining idx : Nat) (sqlPrev : String) (attempts : List SQLAgentAttempt)
      (trace executed : List String) (succOut : List (List String × List (List Cell))),
      ((runSequentialGo cb question maxAttempts remaining idx sqlPrev attempts trace executed
          succOut).result.success = true →
        (runSequentialGo cb question maxAttempts remaining idx sqlPrev attempts trace executed
          succOut).result.failure_reason = none ∧
        (runSequentialGo cb question maxAttempts remaining idx sqlPrev attempts trace executed
          succOut).successOutputs.getLast? =
          some ((runSequentialGo cb question maxAttempts remaining idx sqlPrev attempts trace
              executed succOut).result.columns,
            (runSequentialGo cb question maxAttempts remaining idx sqlPrev attempts trace
              executed succOut).result.rows)) ∧
      ((runSequentialGo cb question maxAttempts remaining idx sqlPrev attempts trace executed
          succOut).result.success = false →
        (runSequentialGo cb question maxAttempts remaining idx sqlPrev attempts trace executed
          succOut).result.columns = [] ∧
        (runSequentialGo cb question maxAttempts remaining idx sqlPrev attempts trace executed
          succOut).result.rows = []) := by
  intro remaining
  induction remaining with
  | zero =>
    intro idx sqlPrev attempts trace executed succOut
    constructor
    · intro h
      simp [runSequentialGo] at h
    · intro _
      exact ⟨rfl, rfl⟩
  | succ rem ih =>
    intro idx sqlPrev attempts trace executed succOut
    simp only [runSequentialGo]
    cases hval : (cb.validate (seqSql cb question idx)).1 with
    | true =>
      simp only [if_true]
      cases hexec : cb.execute idx (seqSql cb question idx) with
      | ok out =>
        constructor
        · intro _
          exact ⟨rfl, getLast?_append_singleton succOut out⟩
        · intro h
          simp at h
      | error e => exact ih (idx + 1) _ _ _ _ _
    | false =>
      simp only [Bool.false_eq_true, if_false]
      exact ih (idx + 1) _ _ _ _ _

def c3CexCallbacks : SeqCallbacks :=
  { gen := fun _ => some ("SELECT 1 FROM household_expenses", "r"),
    fallbackSql := fun _ => "SELECT 1",
    validate := fun _ => (true, ""),
    execute := fun _ _ => .error "",
    buildAnswer := fun _ _ _ => "" }

/-- C3 counterexample: with an execution callback whose exception text is empty (a
behaviour the claim quantifies over), the failed result's failure_reason is the empty
string — present but not non-empty, contradicting the claim as stated. -/
theorem C3_failure_reason_counterexample :
    (runSequential c3CexCallbacks "q" 1).result.success = false ∧
    (runSequential c3CexCallbacks "q" 1).result.failure_reason = some "" := by decide

/-- C3 (amended): the sequential orchestrator records at most max_attempts attempts and
`_route_after_attempt` only loops while attempt < max_attempts; a failed result always
has failure_reason populated, and it is non-empty provided the validator's rejection
reasons and the executor's exception texts are non-empty (as the repository's are). -/
theorem C3_attempts_bounded_failure_reason (cb : SeqCallbacks) (question : String)
    (maxAttempts : Nat)
    (hv : ∀ s, (cb.validate s).1 = false → (cb.validate s).2 ≠ "")
    (he : ∀ i s e, cb.execute i s = .error e → e ≠ "") :
    (runSequential cb question maxAttempts).result.attempts.length ≤ maxAttempts ∧
    ((runSequential cb question maxAttempts).result.success = false →
      ∃ r, (runSequential cb question maxAttempts).result.failure_reason = some r ∧ r ≠ "") ∧
    (∀ (executionOk : Bool) (attempt max2 : Nat),
      routeAfterAttempt executionOk attempt max2 = "prepare_fix" → attempt < max2) := by
  have h := runSequentialGo_len_reason cb question maxAttempts hv he maxAttempts 1 "" [] [] [] []
    (by intro a ha; simp at ha)
  refine ⟨by simpa using h.1, h.2, ?_⟩
  intro executionOk attempt max2 hroute
  unfold routeAfterAttempt at hroute
  cases executionOk with
  | true =>
    rw [if_pos rfl] at hroute
    exact absurd hroute (by decide)
  | false =>
    rw [if_neg (by simp)] at hroute
    by_cases h2 : attempt ≥ max2
    · rw [if_pos h2] at hroute
      exact absurd hroute (by decide)
    · omega

def c3WitCallbacks : SeqCallbacks :=
  { gen := fun _ => some ("SELECT 1", "r"),
    fallbackSql := fun _ => "FB",
    validate := fun _ => (false, "bad"),
    execute := fun _ _ => .error "boom",
    buildAnswer := fun _ _ _ => "" }

/-- Witness for C3 (amended) at a concrete input. -/
theorem C3_attempts_bounded_failure_reason_witness :
    (runSequential c3WitCallbacks "q" 2).result.attempts.length ≤ 2 ∧
    ((runSequential c3WitCallbacks "q" 2).result.success = false →
      ∃ r, (runSequential c3WitCallbacks "q" 2).result.failure_reason = some r ∧ r ≠ "") ∧
    (∀ (executionOk : Bool) (attempt max2 : Nat),
      routeAfterAttempt executionOk attempt max2 = "prepare_fix" → attempt < max2) :=
  C3_attempts_bounded_failure_reason c3WitCallbacks "q" 2
    (fun s _ => by
      show ("bad" : String) ≠ ""
      decide)
    (fun _ _ e hh => by
      injection hh with h2
      rw [← h2]
      decide)

/-- C4: in every sequential run, every string passed to the execution callback was
validated OK by the (pure) validator; and `_node_execute_sql` with validation_ok false
never invokes the executor and reports execution_ok false. -/
theorem C4_execution_only_after_validation (cb : SeqCallbacks) (question : String)
    (maxAttempts : Nat) :
    (∀ s ∈ (runSequential cb question maxAttempts).executedSqls, (cb.validate s).1 = true) ∧
    (∀ (vr : Option String) (sql : String)
        (exec : String → Except String (List String × List (List Cell))),
      (nodeExecuteSql false vr sql exec).executed = false ∧
      (nodeExecuteSql false vr sql exec).execution_ok = false) := by
  constructor
  · exact runSequentialGo_validated cb question maxAttempts maxAttempts 1 "" [] [] [] []
      (by intro s hs; simp at hs)
  · intro vr sql exec
    exact ⟨rfl, rfl⟩

def c4WitCallbacks : SeqCallbacks :=
  { gen := fun i => if i == 1 then some ("BAD SQL", "first") else some ("SELECT 2 FROM t", "fix"),
    fallbackSql := fun _ => "FB",
    validate := fun s => if s == "SELECT 2 FROM t" then (true, "") else (false, "bad sql"),
    execute := fun _ s => if s == "SELECT 2 FROM t" then .ok (["a"], [[.int 1]]) else .error "boom",
    buildAnswer := fun _ _ _ => "ok" }

/-- Witness for C4 at a concrete input. -/
theorem C4_execution_only_after_validation_witness :
    (c4WitCallbacks.validate "SELECT 2 FROM t").1 = true ∧
    (nodeExecuteSql false (some "reason") "SELECT 1" (fun _ => .ok ([], []))).executed = false :=
  ⟨(C4_execution_only_after_validation c4WitCallbacks "q" 3).1 "SELECT 2 FROM t" (by decide),
   ((C4_execution_only_after_validation c4WitCallbacks "q" 3).2 (some "reason") "SELECT 1"
     (fun _ => .ok ([], []))).1⟩

/-- C6: in every sequential run, success implies failure_reason is absent and the
result's columns/rows are those of the last successful execution; failure implies the
columns and rows are both empty — and `_node_summarize_failure` always clears
columns/rows and sets success false. -/
theorem C6_result_invariant (cb : SeqCallbacks) (question : String) (maxAttempts : Nat) :
    ((runSequential cb question maxAttempts).result.success = true →
      (runSequential cb question maxAttempts).result.failure_reason = none ∧
      (runSequential cb question maxAttempts).successOutputs.getLast? =
        some ((runSequential cb question maxAttempts).result.columns,
          (runSequential cb question maxAttempts).result.rows)) ∧
    ((runSequential cb question maxAttempts).result.success = false →
      (runSequential cb question maxAttempts).result.columns = [] ∧
      (runSequential cb question maxAttempts).result.rows = []) ∧
    (∀ (attempt : Nat) (dbe vr : Option String) (sql : String),
      (nodeSummarizeFailure attempt dbe vr sql).success = false ∧
      (nodeSummarizeFailure attempt dbe vr sql).columns = [] ∧
      (nodeSummarizeFailure attempt dbe vr sql).rows = []) := by
  have h := runSequentialGo_invariant cb question maxAttempts maxAttempts 1 "" [] [] [] []
  exact ⟨h.1, h.2, fun attempt dbe vr sql => ⟨rfl, rfl, rfl⟩⟩

def c6WitCallbacks : SeqCallbacks :=
  { gen := fun _ => some ("SELECT a FROM t", "r"),
    fallbackSql := fun _ => "FB",
    validate := fun _ => (true, ""),
    execute := fun _ _ => .ok (["a"], [[.int 1]]),
    buildAnswer := fun _ _ _ => "ok" }

/-- Witness for C6 at a concrete input. -/
theorem C6_result_invariant_witness :
    (runSequential c6WitCallbacks "q" 3).result.failure_reason = none ∧
    (runSequential c6WitCallbacks "q" 3).successOutputs.getLast? =
      some ((runSequential c6WitCallbacks "q" 3).result.columns,
        (runSequential c6WitCallbacks "q" 3).result.rows) :=
  (C6_result_invariant c6WitCallbacks "q" 3).1 (by decide)

/-! ## Embedding of the fuzzy-retry routing (`_graph_should_retry`, analysis.py 897-938) -/

def digitsToNat (l : List Char) : Nat := l.foldl (fun acc c => acc * 10 + (c.toNat - 48)) 0

/-- Model of Python `float(str)` for the zero-aggregate check: optional surrounding
whitespace and sign, decimal digits with optional fraction and exponent. (The
`inf`/`nan`/underscore forms Python additionally accepts never arise from numeric
result cells.) -/
def parsePyFloat (s : String) : Option ℚ :=
  let t := pstrip s.data
  let signAndRest : ℚ × List Char :=
    match t with
    | '+' :: r => (1, r)
    | '-' :: r => (-1, r)
    | r => (1, r)
  let sign := signAndRest.1
  let t1 := signAndRest.2
  let intDigits := t1.takeWhile isDigitC
  let r1 := t1.drop intDigits.length
  let fracAndRest : List Char × List Char :=
    match r1 with
    | '.' :: rr => (rr.takeWhile isDigitC, rr.drop (rr.takeWhile isDigitC).length)
    | _ => ([], r1)
  let fracDigits := fracAndRest.1
  let r2 := fracAndRest.2
  if intDigits.isEmpty && fracDigits.isEmpty then none
  else
    let mantissa : ℚ := sign * ((digitsToNat intDigits : ℚ) +
      (digitsToNat fracDigits : ℚ) / ((10 : ℚ) ^ fracDigits.length))
    match r2 with
    | [] => some mantissa
    | e :: rr =>
      if e == 'e' || e == 'E' then
        let esignAndRest : Bool × List Char :=
          match rr with
          | '+' :: q => (false, q)
          | '-' :: q => (true, q)
          | q => (false, q)
        let eDigits := esignAndRest.2.takeWhile isDigitC
        if eDigits.isEmpty || !(esignAndRest.2.drop eDigits.length).isEmpty then none
        else if esignAndRest.1 then some (mantissa / (10 : ℚ) ^ digitsToNat eDigits)
        else some (mantissa * (10 : ℚ) ^ digitsToNat eDigits)
      else none

def pyFloatOfCell : Cell → Option ℚ
  | .int n => some (n : ℚ)
  | .float q => some q
  | .str sv => parsePyFloat sv

def METRIC_WORDS : List (List Char) :=
  ["amount".data, "total".data, "sum".data, "spend".data, "value".data, "count".data]

/-- `re.search(r"(amount|total|sum|spend|value|count)", str(column), re.IGNORECASE)`:
case-insensitive substring search. -/
def metricColRe (column : String) : Bool :=
  METRIC_WORDS.any (fun w => containsL w (lowerL column.data))

def cellIsEmptyStr : Cell → Bool
  | .str sv => sv == ""
  | _ => false

/-- `abs(value) > 1e-9` with the threshold as the exact rational `10 ^ (-9)`: for
`v = num / den` in lowest terms with `den > 0` this is `den < natAbs num * 10 ^ 9`
(stated on `num`/`den` so the kernel can evaluate it; `ratAbsGtThreshold_iff` below
proves it equal to the source's comparison). -/
def ratAbsGtThreshold (v : ℚ) : Bool := decide (v.den < v.num.natAbs * 1000000000)

theorem ratAbsGtThreshold_iff (v : ℚ) :
    ratAbsGtThreshold v = true ↔ (1 : ℚ) / 1000000000 < |v| := by
  rw [ratAbsGtThreshold, decide_eq_true_eq]
  have hd : (0 : ℚ) < (v.den : ℚ) := by exact_mod_cast v.pos
  have hv : |v| = (v.num.natAbs : ℚ) / (v.den : ℚ) := by
    conv_lhs => rw [← Rat.num_div_den v]
    rw [abs_div, abs_of_pos hd, Int.cast_natAbs, Int.cast_abs]
  rw [hv, div_lt_div_iff₀ (by norm_num) hd, one_mul]
  exact_mod_cast Iff.rfl

/-- One step of the inner loop of `_looks_like_zero_aggregate_result`: `none` models
the early `return False`. -/
def zeroAggStep (row : List Cell) (idx : Nat) (found : Bool) : Option Bool :=
  if row.length ≤ idx then some found
  else
    let raw := row.getD idx (.str "")
    if cellIsEmptyStr raw then some found
    else
      match pyFloatOfCell raw with
      | none => none
      | some v => if ratAbsGtThreshold v then none else some true

def zeroAggLoop : List (List Cell × Nat) → Bool → Option Bool
  | [], found => some found
  | (row, idx) :: rest, found =>
    match zeroAggStep row idx found with
    | none => none
    | some f => zeroAggLoop rest f

/-- `_looks_like_zero_aggregate_result` (analysis.py lines 904-929); Python's `1e-9`
threshold is modelled as the exact rational. -/
def looksLikeZeroAggregate (result : SQLAgentResult) : Bool :=
  if !result.success || result.rows.isEmpty || result.columns.isEmpty then false
  else
    let metricIdx := (List.range result.columns.length).filter
        (fun idx => metricColRe (result.columns.getD idx ""))
    if metricIdx.isEmpty then false
    else
      match zeroAggLoop
          (result.rows.flatMap (fun row => metricIdx.map (fun idx => (row, idx)))) false with
      | none => false
      | some f => f

/-- The pipeline-state fields consumed by `_graph_should_retry`. -/
structure RetryState where
  primaryResult : Option SQLAgentResult
  shouldFuzzyRetry : Bool
  resolvedQuestion : String
  fallbackQuestion : String

/-- `_graph_should_retry` (analysis.py lines 897-938). -/
def graphShouldRetry (state : RetryState) : String :=
  match state.primaryResult with
  | none => "use_primary"
  | some primary =>
    if !state.shouldFuzzyRetry then "use_primary"
    else if primary.success && primary.rows.length != 0 &&
        !(looksLikeZeroAggregate primary) then "use_primary"
    else
      let resolved := pstrip state.resolvedQuestion.data
      let fallback := pstrip state.fallbackQuestion.data
      if fallback.isEmpty || fallback == resolved then "use_primary"
      else "retry_with_fuzzy"

def c7ZeroResult : SQLAgentResult :=
  { success := true, final_sql := "s", answer := "0", attempts := [],
    columns := ["total_spend"], rows := [[.float 0]], tool_trace := [],
    failure_reason := none }

def c7CexState : RetryState :=
  { primaryResult := some c7ZeroResult, shouldFuzzyRetry := true,
    resolvedQuestion := "x", fallbackQuestion := "" }

/-- C7 counterexample: a state satisfying every hypothesis of the claim as stated
(fuzzy-retry flag set, fallback question differing from the resolved one, successful
primary with non-empty rows and all metric columns zero) on which `_graph_should_retry`
still answers use_primary, because the fallback question is empty after stripping. -/
theorem C7_route_counterexample :
    c7CexState.shouldFuzzyRetry = true ∧
    c7CexState.fallbackQuestion ≠ c7CexState.resolvedQuestion ∧
    c7ZeroResult.success = true ∧ c7ZeroResult.rows ≠ [] ∧
    looksLikeZeroAggregate c7ZeroResult = true ∧
    c7CexState.primaryResult = some c7ZeroResult ∧
    graphShouldRetry c7CexState = "use_primary" := by decide

/-- C7 (amended): with the fuzzy-retry flag set, a successful primary result with
non-empty rows that is a zero aggregate, and a fallback question that is non-empty
after stripping and differs from the stripped resolved question, `_graph_should_retry`
answers retry_with_fuzzy. -/
theorem C7_zero_aggregate_routes_to_fuzzy (state : RetryState) (primary : SQLAgentResult)
    (h1 : state.primaryResult = some primary)
    (h2 : state.shouldFuzzyRetry = true)
    (_h3 : primary.success = true)
    (_h4 : primary.rows ≠ [])
    (h5 : looksLikeZeroAggregate primary = true)
    (h6 : pstrip state.fallbackQuestion.data ≠ [])
    (h7 : pstrip state.fallbackQuestion.data ≠ pstrip state.resolvedQuestion.data) :
    graphShouldRetry state = "retry_with_fuzzy" := by
  unfold graphShouldRetry
  rw [h1]
  dsimp only
  rw [h2, h5]
  simp only [Bool.not_true, Bool.and_false, Bool.false_eq_true, if_false]
  have hcond : ¬ (((pstrip state.fallbackQuestion.data).isEmpty
      || pstrip state.fallbackQuestion.data == pstrip state.resolvedQuestion.data) = true) := by
    simp only [Bool.or_eq_true, not_or]
    exact ⟨fun hE => h6 (List.isEmpty_iff.mp hE), fun hB => h7 (beq_iff_eq.mp hB)⟩
  rw [if_neg hcond]

def c7WitState : RetryState :=
  { primaryResult := some c7ZeroResult, shouldFuzzyRetry := true,
    resolvedQuestion := "spend by anna", fallbackQuestion := "spend by anna fuzzy" }

/-- Witness for C7 (amended) at a concrete input. -/
theorem C7_zero_aggregate_routes_to_fuzzy_witness :
    graphShouldRetry c7WitState = "retry_with_fuzzy" :=
  C7_zero_aggregate_routes_to_fuzzy c7WitState c7ZeroResult rfl rfl rfl (by decide) (by decide)
    (by decide) (by decide)

/-! ## Embedding of dates and time-window extraction (analysis.py 80-97, 425-534, 645-730) -/

/-- A Python `datetime.date` (proleptic Gregorian; Python's domain is year ≥ 1). -/
structure PyDate where
  year : Int
  month : Nat
  day : Nat
deriving DecidableEq, Repr

def isLeapYear (y : Int) : Bool := y % 4 == 0 && (y % 100 != 0 || y % 400 == 0)

def daysInMonth (y : Int) (m : Nat) : Nat :=
  if m == 2 then (if isLeapYear y then 29 else 28)
  else if m == 4 || m == 6 || m == 9 || m == 11 then 30
  else 31

/-- One day earlier: Python `date - timedelta(days=1)`. -/
def prevDay (d : PyDate) : PyDate :=
  if 1 < d.day then { d with day := d.day - 1 }
  else if 1 < d.month then
    { d with month := d.month - 1, day := daysInMonth d.year (d.month - 1) }
  else { year := d.year - 1, month := 12, day := 31 }

/-- Python `date - timedelta(days=n)`. -/
def subDays (d : PyDate) : Nat → PyDate
  | 0 => d
  | n + 1 => subDays (prevDay d) n

def daysBeforeMonth (y : Int) (m : Nat) : Nat :=
  (List.range (m - 1)).foldl (fun acc i => acc + daysInMonth y (i + 1)) 0

/-- Python `date.toordinal()`: 0001-01-01 is day 1 (year ≥ 1 in Python's domain). -/
def toOrdinal (d : PyDate) : Nat :=
  let n := (d.year - 1).toNat
  365 * n + n / 4 - n / 100 + n / 400 + daysBeforeMonth d.year d.month + d.day

/-- Python `date.weekday()`: Monday = 0 (0001-01-01 was a Monday). -/
def weekday (d : PyDate) : Nat := (toOrdinal d + 6) % 7

/-- The `while month <= 0: month += 12; year -= 1` loop of `_shift_month_start`. -/
def normMonthUp (y m : Int) : Int × Int :=
  if m ≤ 0 then normMonthUp (y - 1) (m + 12) else (y, m)
termination_by (1 - m).toNat
decreasing_by omega

/-- The `while month > 12: month -= 12; year += 1` loop of `_shift_month_start`. -/
def normMonthDown (y m : Int) : Int × Int :=
  if 12 < m then normMonthDown (y + 1) (m - 12) else (y, m)
termination_by m.toNat
decreasing_by omega

/-- `_shift_month_start` (analysis.py 425-434). -/
def shiftMonthStart (start : PyDate) (monthDelta : Int) : PyDate :=
  let p := normMonthUp start.year ((start.month : Int) + monthDelta)
  let q := normMonthDown p.1 p.2
  { year := q.1, month := q.2.toNat, day := 1 }

/-- `\s+` whose continuation starts with a non-whitespace token (as everywhere in the
two time regexes): the maximal whitespace run is the only viable choice, so no
backtracking over its length is needed. Requires at least one whitespace char. -/
def wsRun1 (l : List Char) : Option (List Char) :=
  let r := l.takeWhile isWs
  if r.isEmpty then none else some (l.drop r.length)

def nextIsWord : List Char → Bool
  | [] => false
  | c :: _ => isWordChar c

/-- The unit alternation `(day|days|week|weeks|month|months)\b` in the pattern's
order, each alternative checked against the trailing word boundary (Python's
backtracking: `day` inside `days` fails the `\b` and the engine moves on). -/
def TIME_UNITS : List (List Char) :=
  ["day".data, "days".data, "week".data, "weeks".data, "month".data, "months".data]

def unitMatch (l : List Char) : Option (List Char × List Char) :=
  TIME_UNITS.findSome? (fun u =>
    if isPrefixL u l && !nextIsWord (l.drop u.length) then some (u, l.drop u.length)
    else none)

def KEYWORDS_LPP : List (List Char) := ["last".data, "past".data, "previous".data]

/-- `(?:last|past|previous)\s+(\d{1,3})\s+(day|…)\b` at the head of `l`: returns
(consumed length, digit group, unit). `\d{1,3}` greedy with backtracking succeeds
iff the whole digit run has length 1-3 (a shorter choice leaves a digit where `\s+`
must match). -/
def relCoreMatch (l : List Char) : Option (Nat × List Char × List Char) :=
  KEYWORDS_LPP.findSome? (fun kw =>
    if isPrefixL kw l then
      match wsRun1 (l.drop kw.length) with
      | none => none
      | some l2 =>
        let ds := l2.takeWhile isDigitC
        if ds.isEmpty || 3 < ds.length then none
        else
          match wsRun1 (l2.drop ds.length) with
          | none => none
          | some l4 =>
            match unitMatch l4 with
            | none => none
            | some (u, rest) => some (l.length - rest.length, ds, u)
    else none)

/-- The whole `_RELATIVE_TIME_WINDOW_RE` body at one position: the greedy optional
`(?:in\s+the\s+)?` is tried first, then dropped (where the prefixed form matches,
the bare form cannot, so the order only mirrors the engine). -/
def relAtPos (l : List Char) : Option (Nat × List Char × List Char) :=
  let withPre : Option (Nat × List Char × List Char) :=
    if isPrefixL "in".data l then
      match wsRun1 (l.drop 2) with
      | none => none
      | some l1 =>
        if isPrefixL "the".data l1 then
          match wsRun1 (l1.drop 3) with
          | none => none
          | some l2 =>
            match relCoreMatch l2 with
            | none => none
            | some (n, ds, u) => some (l.length - (l2.length - n), ds, u)
        else none
    else none
  match withPre with
  | some r => some r
  | none => relCoreMatch l

/-- `_RELATIVE_TIME_WINDOW_RE.search` (analysis.py 80-84) on a lowercase string:
leftmost match, returning (start, length, digit group, unit). The leading `\b`
holds iff the previous char is not a word char (the first matched char always is
one). -/
def relTimeSearchAux : Bool → Nat → List Char → Option (Nat × Nat × List Char × List Char)
  | _, _, [] => none
  | prevWord, pos, c :: rest =>
    match if prevWord then none else relAtPos (c :: rest) with
    | some (n, ds, u) => some (pos, n, ds, u)
    | none => relTimeSearchAux (isWordChar c) (pos + 1) rest

def relTimeSearch (l : List Char) : Option (Nat × Nat × List Char × List Char) :=
  relTimeSearchAux false 0 l

def wordAtPos (w l : List Char) : Bool := isPrefixL w l && !nextIsWord (l.drop w.length)

def pairAtPos (w1 w2 l : List Char) : Bool :=
  if isPrefixL w1 l then
    match wsRun1 (l.drop w1.length) with
    | none => false
    | some l1 => isPrefixL w2 l1 && !nextIsWord (l1.drop w2.length)
  else false

/-- `re.search` for a `\b`-anchored pattern `p` (existence only). -/
def bSearchAux (p : List Char → Bool) : Bool → List Char → Bool
  | _, [] => false
  | prevWord, c :: rest => (!prevWord && p (c :: rest)) || bSearchAux p (isWordChar c) rest

def bSearch (p : List Char → Bool) (l : List Char) : Bool := bSearchAux p false l

def wordSearch (w l : List Char) : Bool := bSearch (wordAtPos w) l

def pairSearch (w1 w2 l : List Char) : Bool := bSearch (pairAtPos w1 w2) l

/-- `_RELATIVE_TIME_KEYWORDS_RE.search` (analysis.py 85-88) as a Bool. -/
def keywordsSearch (l : List Char) : Bool :=
  bSearch (fun t =>
    wordAtPos "today".data t || wordAtPos "yesterday".data t ||
    pairAtPos "this".data "week".data t || pairAtPos "last".data "week".data t ||
    pairAtPos "this".data "month".data t || pairAtPos "last".data "month".data t) l

/-- `_ResolvedTimeWindow` (analysis.py 92-97). -/
structure ResolvedTimeWindow where
  source_phrase : String
  start_date : PyDate
  end_date : PyDate
  interpretation : String
deriving DecidableEq, Repr

/-- `_extract_time_window` (analysis.py 437-521). The regex runs on the lowercased
question; `source_phrase` slices the original question at the match's indices
(lowercasing preserves length). A match whose amount is 0 falls through to the
keyword branches, exactly as in the source. -/
def extractTimeWindow (question : String) (today : PyDate) : Option ResolvedTimeWindow :=
  let lowered := lowerL question.data
  let fromMatch : Option ResolvedTimeWindow :=
    match relTimeSearch lowered with
    | none => none
    | some (start, len, ds, u) =>
      let amount := digitsToNat ds
      if 0 < amount then
        let stripped := pstrip ((question.data.drop start).take len)
        let sourcePhrase : String :=
          String.mk (if stripped.isEmpty then (lowered.drop start).take len else stripped)
        if u = "day".data ∨ u = "days".data then
          some { source_phrase := sourcePhrase,
                 start_date := subDays today (amount - 1),
                 end_date := today,
                 interpretation :=
                   "rolling last " ++ Nat.repr amount ++ " day(s) including today" }
        else if u = "week".data ∨ u = "weeks".data then
          some { source_phrase := sourcePhrase,
                 start_date := subDays today (amount * 7 - 1),
                 end_date := today,
                 interpretation :=
                   "rolling last " ++ Nat.repr amount ++ " week(s) including today" }
        else
          some { source_phrase := sourcePhrase,
                 start_date :=
                   shiftMonthStart { year := today.year, month := today.month, day := 1 }
                     (-((amount : Int) - 1)),
                 end_date := today,
                 interpretation :=
                   "calendar window over last " ++ Nat.repr amount ++
                     " month(s) including current month" }
      else none
  match fromMatch with
  | some w => some w
  | none =>
    if wordSearch "today".data lowered then
      some { source_phrase := "today", start_date := today, end_date := today,
             interpretation := "today only" }
    else if wordSearch "yesterday".data lowered then
      some { source_phrase := "yesterday", start_date := subDays today 1,
             end_date := subDays today 1, interpretation := "yesterday only" }
    else if pairSearch "this".data "week".data lowered then
      some { source_phrase := "this week", start_date := subDays today (weekday today),
             end_date := today, interpretation := "current week to date (Monday start)" }
    else if pairSearch "last".data "week".data lowered then
      some { source_phrase := "last week",
             start_date := subDays (subDays today (weekday today + 1)) 6,
             end_date := subDays today (weekday today + 1),
             interpretation := "previous full week (Monday-Sunday)" }
    else if pairSearch "this".data "month".data lowered then
      some { source_phrase := "this month",
             start_date := { year := today.year, month := today.month, day := 1 },
             end_date := today, interpretation := "current month to date" }
    else if pairSearch "last".data "month".data lowered then
      some { source_phrase := "last month",
             start_date :=
               { year := (prevDay { year := today.year, month := today.month, day := 1 }).year,
                 month := (prevDay { year := today.year, month := today.month, day := 1 }).month,
                 day := 1 },
             end_date := prevDay { year := today.year, month := today.month, day := 1 },
             interpretation := "previous full calendar month" }
    else none

/-- `_has_relative_time_intent` (analysis.py 532-534). -/
def hasRelativeTimeIntent (question : String) : Bool :=
  (relTimeSearch (lowerL question.data)).isSome || keywordsSearch (lowerL question.data)

/-- The tuple `_resolve_question_context` returns (analysis.py 651). -/
structure ResolvedContext where
  hints : List String
  shouldFuzzyRetry : Bool
  memberNames : List String
  categories : List String
  subcategories : List String
  timeWindow : Option ResolvedTimeWindow

/-- `_resolve_question_context` (analysis.py 645-730). The awaited DB loads
(`_load_household_date_bounds`, `_load_resolution_candidates`), the fragment
extractors, `_resolve_alias` (difflib scoring) and `_extract_description_phrase`
are oracle parameters; empty strings model Python's falsy fragments. Note the
source initialises `time_window = None` at line 654 and returns it unchanged at
line 730 — `_extract_time_window` is never called on this path. -/
def resolveQuestionContext
    (question timezoneName : String)
    (minDate maxDate : Option String)
    (memberNames categories subcategories : List String)
    (personFragment categoryFragment subcategoryFragment : String → String)
    (resolveAlias : String → List String → ℚ → Option String × List String)
    (descriptionPhrase : String → String) : ResolvedContext :=
  let timeWindow : Option ResolvedTimeWindow := none
  let mn := minDate.getD ""
  let mx := maxDate.getD ""
  let hints0 : List String :=
    if !mn.isEmpty && !mx.isEmpty then
      ["Expense dates available in `date_incurred` run from '" ++ mn ++ "' to '" ++ mx ++ "'."]
    else []
  let step1 : List String × Bool :=
    if hasRelativeTimeIntent question && !mx.isEmpty then
      (hints0 ++
        ["Relative-time request detected. Prefer `date_incurred` filtering and use household reference date '"
          ++ mx ++ "' (timezone '" ++ timezoneName ++ "') unless the user gave an explicit date."],
        true)
    else (hints0, false)
  let personF := personFragment question
  let step2 : List String × Bool :=
    if !personF.isEmpty then
      let ra := resolveAlias personF memberNames (0.58 : ℚ)
      let rp := ra.1.getD ""
      if !rp.isEmpty then
        (step1.1 ++ ["Person mention '" ++ personF ++ "' maps to household member '" ++ rp ++ "'."],
          true)
      else if !ra.2.isEmpty then
        (step1.1 ++ ["Person mention '" ++ personF ++ "' is ambiguous across: " ++ joinComma ra.2 ++ "."],
          true)
      else step1
    else step1
  let categoryF := categoryFragment question
  let step3 : List String × Bool :=
    if !categoryF.isEmpty then
      let ra := resolveAlias categoryF categories (0.55 : ℚ)
      let rc := ra.1.getD ""
      if !rc.isEmpty then
        (step2.1 ++ ["Category mention '" ++ categoryF ++ "' maps to '" ++ rc ++ "'."], true)
      else if !ra.2.isEmpty then
        (step2.1 ++ ["Category mention '" ++ categoryF ++ "' is ambiguous across: " ++ joinComma ra.2 ++ "."],
          true)
      else step2
    else step2
  let subF := subcategoryFragment question
  let step4 : List String × Bool :=
    if !subF.isEmpty then
      let ra := resolveAlias subF subcategories (0.55 : ℚ)
      let rs := ra.1.getD ""
      if !rs.isEmpty then
        (step3.1 ++ ["Subcategory mention '" ++ subF ++ "' maps to '" ++ rs ++ "'."], true)
      else if !ra.2.isEmpty then
        (step3.1 ++ ["Subcategory mention '" ++ subF ++ "' is ambiguous across: " ++ joinComma ra.2 ++ "."],
          true)
      else step3
    else step3
  let descr := descriptionPhrase question
  let step5 : List String × Bool :=
    if !descr.isEmpty then
      (step4.1 ++
        ["Description text filter detected: '" ++ descr ++ "'. Search across description and merchant_or_item."],
        true)
    else step4
  { hints := step5.1, shouldFuzzyRetry := step5.2, memberNames := memberNames,
    categories := categories, subcategories := subcategories, timeWindow := timeWindow }

/-- C8 counterexample: on a question carrying a relative time phrase (the
repository's own test question), context resolution does not create a time
window — `_resolve_question_context` initialises `time_window = None` and never
calls `_extract_time_window`, so the returned `time_window` is `none` although
relative-time intent is detected. -/
theorem C8_time_window_counterexample :
    hasRelativeTimeIntent "What categories pooja has spend in last 3 days?" = true ∧
    (resolveQuestionContext "What categories pooja has spend in last 3 days?" "UTC"
        (some "2026-01-01") (some "2026-02-21") [] [] []
        (fun _ => "") (fun _ => "") (fun _ => "")
        (fun _ _ _ => (none, [])) (fun _ => "")).timeWindow = none := by
  constructor
  · decide
  · rfl

/-- C8 (amended): the pipeline state's `time_window` from context resolution is
`none` for every question and every oracle behaviour (no `ResolvedTimeWindow` is
created on that path); `_extract_time_window` itself, which the pipeline never
invokes, does resolve the claimed bounds: "last 3 days" anchored at 2026-02-21
yields start 2026-02-19 and end 2026-02-21 inclusive, and the same question
carries relative-time intent. -/
theorem C8_time_window_amended :
    (∀ (question timezoneName : String) (minDate maxDate : Option String)
        (memberNames categories subcategories : List String)
        (pf cf sf : String → String)
        (ra : String → List String → ℚ → Option String × List String)
        (dp : String → String),
      (resolveQuestionContext question timezoneName minDate maxDate memberNames
          categories subcategories pf cf sf ra dp).timeWindow = none) ∧
    extractTimeWindow "What categories pooja has spend in last 3 days?"
        { year := 2026, month := 2, day := 21 } =
      some { source_phrase := "last 3 days",
             start_date := { year := 2026, month := 2, day := 19 },
             end_date := { year := 2026, month := 2, day := 21 },
             interpretation := "rolling last 3 day(s) including today" } ∧
    hasRelativeTimeIntent "What categories pooja has spend in last 3 days?" = true := by
  refine ⟨fun _ _ _ _ _ _ _ _ _ _ _ _ => rfl, by decide, by decide⟩

/-- Witness for C8 (amended) at a concrete input. -/
theorem C8_time_window_amended_witness :
    (resolveQuestionContext "spend in last 3 days" "UTC" none none [] [] []
        (fun _ => "") (fun _ => "") (fun _ => "")
        (fun _ _ _ => (none, [])) (fun _ => "")).timeWindow = none :=
  C8_time_window_amended.1 "spend in last 3 days" "UTC" none none [] [] []
    (fun _ => "") (fun _ => "") (fun _ => "") (fun _ _ _ => (none, [])) (fun _ => "")

/-! ## Embedding of the tool query engine (tool_query_engine.py) -/

/-- `NUMBER_WORDS` (tool_query_engine.py 27-49), in the order the
`NUMBER_TOKEN_REGEX` alternation lists them (the same order). -/
def NUMBER_WORDS : List (List Char × Nat) :=
  [("zero".data, 0), ("one".data, 1), ("two".data, 2), ("three".data, 3),
   ("four".data, 4), ("five".data, 5), ("six".data, 6), ("seven".data, 7),
   ("eight".data, 8), ("nine".data, 9), ("ten".data, 10), ("eleven".data, 11),
   ("twelve".data, 12), ("thirteen".data, 13), ("fourteen".data, 14),
   ("fifteen".data, 15), ("sixteen".data, 16), ("seventeen".data, 17),
   ("eighteen".data, 18), ("nineteen".data, 19), ("twenty".data, 20)]

/-- `NUMBER_TOKEN_REGEX` (`(?:\d{1,2}|zero|one|…|twenty)`) matched at the head of
`l` against a continuation `k`: `\d{1,2}` greedy (two digits, then one), then the
word alternatives in the pattern's order, each choice kept only if the
continuation accepts the rest (so `seven` shadows `seventeen` exactly when the
continuation allows it, as in the engine). Returns the captured token. -/
def numTokenMatch (k : List Char → Bool) (l : List Char) : Option (List Char) :=
  let ds := l.takeWhile isDigitC
  if decide (2 ≤ ds.length) && k (l.drop 2) then some (l.take 2)
  else if decide (1 ≤ ds.length) && k (l.drop 1) then some (l.take 1)
  else NUMBER_WORDS.findSome? (fun p =>
    if isPrefixL p.1 l && k (l.drop p.1.length) then some p.1 else none)

/-- `re.search` scanning positions left to right for a pattern returning the
captured number token. -/
def scanFirst (f : List Char → Option (List Char)) : List Char → Option (List Char)
  | [] => f []
  | c :: rest =>
    match f (c :: rest) with
    | some t => some t
    | none => scanFirst f rest

/-- The pattern `top\s+(NUMBER_TOKEN_REGEX)` (no word boundaries, nothing after the
group; `\s+` maximal since the token starts with a non-space). -/
def topNumSearch (l : List Char) : Option (List Char) :=
  scanFirst (fun t =>
    if isPrefixL "top".data t then
      match wsRun1 (t.drop 3) with
      | none => none
      | some l1 => numTokenMatch (fun _ => true) l1
    else none) l

/-- The pattern `(?:last|past)\s+(NUMBER_TOKEN_REGEX)\s+unit s?` with `unit` either
`month` or `day` (the optional trailing `s` constrains nothing). -/
def lpNumSearch (unit : List Char) (l : List Char) : Option (List Char) :=
  scanFirst (fun t =>
    [("last".data : List Char), "past".data].findSome? (fun kw =>
      if isPrefixL kw t then
        match wsRun1 (t.drop kw.length) with
        | none => none
        | some l1 =>
          numTokenMatch (fun r =>
            match wsRun1 r with
            | none => false
            | some r1 => isPrefixL unit r1) l1
      else none)) l

/-- `_extract_number` (tool_query_engine.py 88-95), specialised by the search
function for one of the two patterns above. -/
def extractNumber (searchF : List Char → Option (List Char)) (textValue : String) :
    Option Nat :=
  match searchF (lowerL textValue.data) with
  | none => none
  | some raw =>
    let token := lowerL (pstrip raw)
    if token != [] && token.all isDigitC then some (digitsToNat token)
    else (NUMBER_WORDS.find? (fun p => p.1 == token)).map (fun p => p.2)

/-- `_clamp` (tool_query_engine.py 98-99): `min(max(value, min_v), max_v)`. -/
def clampInt (value minV maxV : Int) : Int :=
  let m := if value < minV then minV else value
  if maxV < m then maxV else m

/-- Python `a or b or c` over integers (`None` and `0` are falsy). -/
def pyOrInt : Option Int → Int → Int → Int
  | some a, b, c => if a != 0 then a else if b != 0 then b else c
  | none, b, c => if b != 0 then b else c

def INTENTS : List String :=
  ["total_spend", "category_breakdown", "member_breakdown", "top_expenses",
   "monthly_trend"]

/-- `infer_intent` (tool_query_engine.py 102-128). -/
def inferIntent (question : String) (explicitIntent : Option String) : String :=
  let explicit := String.mk (lowerL (pstrip (explicitIntent.getD "").data))
  let q := lowerL question.data
  if INTENTS.contains explicit then
    if explicit == "category_breakdown" &&
        (containsL "how much".data q || containsL "total".data q || containsL "sum".data q)
    then "total_spend" else explicit
  else if containsL "how much".data q || containsL "total".data q ||
      containsL "sum".data q then "total_spend"
  else if (containsL "top ".data q || containsL "largest".data q ||
      containsL "highest".data q || containsL "biggest".data q) &&
      containsL "expense".data q then "top_expenses"
  else if containsL "trend".data q || containsL "month over month".data q ||
      containsL "over time".data q then "monthly_trend"
  else if containsL "who".data q || containsL "member".data q ||
      containsL "by user".data q || containsL "by person".data q ||
      containsL "spent most".data q then "member_breakdown"
  else if containsL "category".data q || containsL "breakdown".data q then
    "category_breakdown"
  else "total_spend"

def firstDayOfMonth (d : PyDate) : PyDate := { d with day := 1 }

/-- `_shift_months` (tool_query_engine.py 77-81): Python `//` is floor division and
`%` is the nonnegative remainder, modelled by `Int.fdiv`/`Int.emod`. -/
def shiftMonths (value : PyDate) (deltaMonths : Int) : PyDate :=
  let monthIndex : Int := ((value.month : Int) - 1) + deltaMonths
  { year := value.year + monthIndex.fdiv 12, month := (monthIndex.emod 12 + 1).toNat,
    day := 1 }

def lastDayOfMonth (value : PyDate) : PyDate :=
  prevDay (shiftMonths (firstDayOfMonth value) 1)

/-- `_resolve_period_bounds` (tool_query_engine.py 131-159). -/
def resolvePeriodBounds (period : String) (referenceDate : PyDate) :
    Option PyDate × Option PyDate × String :=
  let periodKey := String.mk (lowerL (pstrip period.data))
  if periodKey == "today" then (some referenceDate, some referenceDate, "Today")
  else if periodKey == "yesterday" then
    (some (subDays referenceDate 1), some (subDays referenceDate 1), "Yesterday")
  else if periodKey == "this_week" then
    (some (subDays referenceDate (weekday referenceDate)), some referenceDate, "This week")
  else if periodKey == "last_7_days" then
    (some (subDays referenceDate 6), some referenceDate, "Last 7 days")
  else if periodKey == "last_30_days" then
    (some (subDays referenceDate 29), some referenceDate, "Last 30 days")
  else if periodKey == "last_60_days" then
    (some (subDays referenceDate 59), some referenceDate, "Last 60 days")
  else if periodKey == "last_90_days" then
    (some (subDays referenceDate 89), some referenceDate, "Last 90 days")
  else if periodKey == "last_month" then
    (some (shiftMonths (firstDayOfMonth referenceDate) (-1)),
     some (lastDayOfMonth (shiftMonths (firstDayOfMonth referenceDate) (-1))), "Last month")
  else if periodKey == "this_year" then
    (some { year := referenceDate.year, month := 1, day := 1 }, some referenceDate,
     "This year")
  else if periodKey == "all_time" then (none, none, "All time")
  else
    (some (firstDayOfMonth referenceDate), some (lastDayOfMonth referenceDate),
     "This month")

/-- `_infer_period_from_question` (tool_query_engine.py 162-202). -/
def inferPeriodFromQuestion (question : String) (currentPeriod : String) : String :=
  let q := lowerL question.data
  if containsL "today".data q then "today"
  else if containsL "yesterday".data q then "yesterday"
  else if containsL "this week".data q then "this_week"
  else if containsL "this year".data q then "this_year"
  else if containsL "all time".data q then "all_time"
  else if containsL "last month".data q || containsL "past month".data q then "last_month"
  else if containsL "this month".data q then "this_month"
  else
    match extractNumber (lpNumSearch "day".data) (String.mk q) with
    | some dayCount =>
      if dayCount ≤ 7 then "last_7_days"
      else if dayCount ≤ 30 then "last_30_days"
      else if dayCount ≤ 60 then "last_60_days"
      else "last_90_days"
    | none =>
      match extractNumber (lpNumSearch "month".data) (String.mk q) with
      | some monthCount =>
        if monthCount ≤ 1 then "last_month"
        else if monthCount == 2 then "last_60_days"
        else if monthCount ≤ 3 then "last_90_days"
        else "all_time"
      | none => currentPeriod

/-- `_escape_sql_literal` (tool_query_engine.py 69-70). -/
def escapeSqlLiteral (value : String) : String :=
  String.mk (value.data.flatMap (fun c => if c == squoteC then [squoteC, squoteC] else [c]))

def pad2 (n : Nat) : String := if n < 10 then "0" ++ Nat.repr n else Nat.repr n

/-- Python `date.isoformat()` (year zero-padded to four digits on Python's domain). -/
def isoDate (d : PyDate) : String :=
  let y := d.year.toNat
  (if y < 10 then "000" ++ Nat.repr y
   else if y < 100 then "00" ++ Nat.repr y
   else if y < 1000 then "0" ++ Nat.repr y
   else Nat.repr y) ++ "-" ++ pad2 d.month ++ "-" ++ pad2 d.day

/-- `_build_where_clause` (tool_query_engine.py 232-281). The category-taxonomy
helpers (`_infer_category_from_question`, `expand_category_terms`,
`resolve_member_name`) are oracle parameters: the claimed fields do not depend on
them and the theorems quantify over every behaviour. -/
def buildWhereClause
    (question period status : String) (category member : Option String)
    (referenceDate : PyDate)
    (householdCategories householdMembers : List String)
    (inferCategory : String → List String → Option String)
    (expandCategoryTerms : String → List String → List String)
    (resolveMemberName : Option String → List String → Option String) :
    String × String × Option String × Option String :=
  let statusKey0 := String.mk (lowerL (pstrip status.data))
  let statusKey :=
    if statusKey0 == "confirmed" || statusKey0 == "draft" || statusKey0 == "all" then
      statusKey0 else "confirmed"
  let clauses0 : List String :=
    if statusKey != "all" then
      ["LOWER(status) = '" ++ escapeSqlLiteral statusKey ++ "'"] else []
  let pb := resolvePeriodBounds period referenceDate
  let clauses1 := clauses0 ++
    (match pb.1 with
     | some s => ["date_incurred >= '" ++ isoDate s ++ "'"]
     | none => []) ++
    (match pb.2.1 with
     | some e => ["date_incurred <= '" ++ isoDate e ++ "'"]
     | none => [])
  let categoryValue : Option String :=
    match category with
    | some c => if c != "" then some c else inferCategory question householdCategories
    | none => inferCategory question householdCategories
  let resolvedCategory : Option String :=
    match categoryValue with
    | some c => if pystrip c != "" then some (pystrip c) else none
    | none => none
  let clauses2 :=
    match resolvedCategory with
    | some rc =>
      let terms := expandCategoryTerms rc householdCategories
      if terms.isEmpty then clauses1
      else clauses1 ++
        ["LOWER(REPLACE(REPLACE(COALESCE(category,''),' ','_'),'-','_')) IN (" ++
          String.intercalate ", " (terms.map (fun term => "'" ++ escapeSqlLiteral term ++ "'")) ++
          ")"]
    | none => clauses1
  let resolvedMember := resolveMemberName member householdMembers
  let rm := resolvedMember.getD ""
  let clauses3 :=
    if rm != "" then
      clauses2 ++
        ["LOWER(logged_by) = '" ++ escapeSqlLiteral (String.mk (lowerL rm.data)) ++ "'"]
    else clauses2
  let whereClause := if clauses3.isEmpty then "1=1" else String.intercalate " AND " clauses3
  (whereClause, pb.2.2, resolvedCategory, resolvedMember)

/-- `BuiltQuery` (tool_query_engine.py 57-66). -/
structure BuiltQuery where
  intent : String
  tool_name : String
  sql : String
  period_label : String
  top_n : Int
  months : Int
  resolved_category : Option String
  resolved_member : Option String
deriving DecidableEq, Repr

/-- `build_query` (tool_query_engine.py 284-420). -/
def buildQuery
    (question : String) (intent : Option String) (period status : String)
    (category member : Option String) (topN months : Int)
    (referenceDate : PyDate)
    (householdCategories householdMembers : List String)
    (inferCategory : String → List String → Option String)
    (expandCategoryTerms : String → List String → List String)
    (resolveMemberName : Option String → List String → Option String) : BuiltQuery :=
  let resolvedIntent := inferIntent question intent
  let extractedTop := extractNumber topNumSearch question
  let finalTopN := clampInt (pyOrInt (extractedTop.map (fun n => (n : Int))) topN 5) 1 20
  let extractedMonths := extractNumber (lpNumSearch "month".data) question
  let finalMonths :=
    clampInt (pyOrInt (extractedMonths.map (fun n => (n : Int))) months 6) 1 24
  let effectivePeriod := inferPeriodFromQuestion question period
  let w := buildWhereClause question effectivePeriod status category member referenceDate
    householdCategories householdMembers inferCategory expandCategoryTerms resolveMemberName
  if resolvedIntent == "category_breakdown" then
    { intent := resolvedIntent, tool_name := "get_category_breakdown",
      sql := "SELECT category, ROUND(COALESCE(SUM(amount),0),2) AS total_spend, " ++
        "COUNT(*) AS expense_count FROM household_expenses WHERE " ++ w.1 ++
        " GROUP BY category ORDER BY total_spend DESC LIMIT 50",
      period_label := w.2.1, top_n := finalTopN, months := finalMonths,
      resolved_category := w.2.2.1, resolved_member := w.2.2.2 }
  else if resolvedIntent == "member_breakdown" then
    { intent := resolvedIntent, tool_name := "get_member_breakdown",
      sql := "SELECT logged_by, ROUND(COALESCE(SUM(amount),0),2) AS total_spend, " ++
        "COUNT(*) AS expense_count FROM household_expenses WHERE " ++ w.1 ++
        " GROUP BY logged_by ORDER BY total_spend DESC LIMIT 50",
      period_label := w.2.1, top_n := finalTopN, months := finalMonths,
      resolved_category := w.2.2.1, resolved_member := w.2.2.2 }
  else if resolvedIntent == "top_expenses" then
    { intent := resolvedIntent, tool_name := "get_top_expenses",
      sql := "SELECT date_incurred, logged_by, category, amount, " ++
        "COALESCE(description, merchant_or_item, 'Expense') AS note " ++
        "FROM household_expenses WHERE " ++ w.1 ++ " ORDER BY amount DESC LIMIT " ++
        Nat.repr finalTopN.toNat,
      period_label := w.2.1, top_n := finalTopN, months := finalMonths,
      resolved_category := w.2.2.1, resolved_member := w.2.2.2 }
  else if resolvedIntent == "monthly_trend" then
    { intent := resolvedIntent, tool_name := "get_monthly_trend",
      sql := "SELECT substr(date_incurred,1,7) AS month, " ++
        "ROUND(COALESCE(SUM(amount),0),2) AS total_spend FROM household_expenses WHERE " ++
        w.1 ++ " AND date_incurred >= '" ++
        isoDate (shiftMonths (firstDayOfMonth referenceDate) (-(finalMonths - 1))) ++
        "' GROUP BY substr(date_incurred,1,7) ORDER BY month",
      period_label := "Last " ++ Nat.repr finalMonths.toNat ++ " months",
      top_n := finalTopN, months := finalMonths,
      resolved_category := w.2.2.1, resolved_member := w.2.2.2 }
  else
    { intent := "total_spend", tool_name := "get_total_spend",
      sql := "SELECT ROUND(COALESCE(SUM(amount),0),2) AS total_spend, " ++
        "COUNT(*) AS expense_count FROM household_expenses WHERE " ++ w.1,
      period_label := w.2.1, top_n := finalTopN, months := finalMonths,
      resolved_category := w.2.2.1, resolved_member := w.2.2.2 }

theorem buildQuery_top_n_months
    (question : String) (intent : Option String) (period status : String)
    (category member : Option String) (topN months : Int)
    (referenceDate : PyDate)
    (householdCategories householdMembers : List String)
    (inferCategory : String → List String → Option String)
    (expandCategoryTerms : String → List String → List String)
    (resolveMemberName : Option String → List String → Option String) :
    (buildQuery question intent period status category member topN months referenceDate
        householdCategories householdMembers inferCategory expandCategoryTerms
        resolveMemberName).top_n =
      clampInt (pyOrInt ((extractNumber topNumSearch question).map (fun n => (n : Int)))
        topN 5) 1 20 ∧
    (buildQuery question intent period status category member topN months referenceDate
        householdCategories householdMembers inferCategory expandCategoryTerms
        resolveMemberName).months =
      clampInt (pyOrInt ((extractNumber (lpNumSearch "month".data) question).map
        (fun n => (n : Int))) months 6) 1 24 := by
  unfold buildQuery
  dsimp only
  constructor <;> (split <;> try rfl) <;> (split <;> try rfl) <;> (split <;> try rfl) <;>
    (split <;> rfl)

/-- C9: digit and number-word phrasings agree in `build_query`: for every choice of
all other arguments and oracle behaviours, the questions containing "top three" and
"top 3" both yield `top_n = 3`, and the questions containing "last six months" and
"last 6 months" both yield `months = 6`. -/
theorem C9_number_word_digit_equivalence
    (intent : Option String) (period status : String) (category member : Option String)
    (topN months : Int) (referenceDate : PyDate)
    (householdCategories householdMembers : List String)
    (inferCategory : String → List String → Option String)
    (expandCategoryTerms : String → List String → List String)
    (resolveMemberName : Option String → List String → Option String) :
    ((buildQuery "show top three expenses" intent period status category member topN
        months referenceDate householdCategories householdMembers inferCategory
        expandCategoryTerms resolveMemberName).top_n = 3 ∧
     (buildQuery "show top 3 expenses" intent period status category member topN
        months referenceDate householdCategories householdMembers inferCategory
        expandCategoryTerms resolveMemberName).top_n = 3) ∧
    ((buildQuery "how much did we spend in the last six months" intent period status
        category member topN months referenceDate householdCategories householdMembers
        inferCategory expandCategoryTerms resolveMemberName).months = 6 ∧
     (buildQuery "how much did we spend in the last 6 months" intent period status
        category member topN months referenceDate householdCategories householdMembers
        inferCategory expandCategoryTerms resolveMemberName).months = 6) := by
  refine ⟨⟨?_, ?_⟩, ?_, ?_⟩
  · rw [(buildQuery_top_n_months "show top three expenses" intent period status category
      member topN months referenceDate householdCategories householdMembers inferCategory
      expandCategoryTerms resolveMemberName).1]
    rfl
  · rw [(buildQuery_top_n_months "show top 3 expenses" intent period status category
      member topN months referenceDate householdCategories householdMembers inferCategory
      expandCategoryTerms resolveMemberName).1]
    rfl
  · rw [(buildQuery_top_n_months "how much did we spend in the last six months" intent
      period status category member topN months referenceDate householdCategories
      householdMembers inferCategory expandCategoryTerms resolveMemberName).2]
    rfl
  · rw [(buildQuery_top_n_months "how much did we spend in the last 6 months" intent
      period status category member topN months referenceDate householdCategories
      householdMembers inferCategory expandCategoryTerms resolveMemberName).2]
    rfl

/-- Witness for C9 at concrete arguments. -/
theorem C9_number_word_digit_equivalence_witness :
    (buildQuery "show top three expenses" none "this_month" "confirmed" none none 5 6
        { year := 2026, month := 2, day := 21 } [] []
        (fun _ _ => none) (fun _ _ => []) (fun _ _ => none)).top_n = 3 :=
  ((C9_number_word_digit_equivalence none "this_month" "confirmed" none none 5 6
      { year := 2026, month := 2, day := 21 } [] []
      (fun _ _ => none) (fun _ _ => []) (fun _ _ => none)).1).1

end LedgerLoop
